import Mathlib

/-!
Verification of the eco-metrics CRUD backend (FastAPI + SQLAlchemy, MySQL).

Shallow embedding conventions:
* Calendar dates are encoded as `Nat` ordinal day numbers; timestamps as `Nat`.
* The `Decimal`/float numeric quantities of the Python code are modelled as
  exact rationals (`ℚ`); the Python `round(x, n)` is modelled as exact rational
  rounding to `n` decimal places (`roundTo`).
* The database session is modelled as an explicit `DBState` threaded through
  each handler.  `sessionmaker(..., autoflush=False)` (database.py) means
  in-loop queries see only the committed state, which the import model follows.
* Exceptions raised by the database driver are modelled by Boolean oracle
  parameters (`raceConflict`, `auditFails`, per-record failure flags): the
  behaviour of a handler is a function of which operations fail.
* FastAPI runs the pydantic validators of schemas.py before a handler body;
  a validator failure yields an HTTP 422 response produced by the framework
  request-validation handler (main.py registers custom handlers only for
  HTTPException and the generic Exception, so the FastAPI default
  RequestValidationError handler, status 422 with a detail payload, applies).
  This boundary is modelled by the `*_endpoint` wrappers.
-/

/-- models.py `User`: id, username, password (plaintext), role. -/
structure AppUser where
  id : Nat
  username : String
  password : String
  role : String
deriving Repr, DecidableEq

/-- models.py `EcoRecord`: one row of `eco_records`. -/
structure EcoRecord where
  id : Nat
  date : Nat
  power_consumption : ℚ
  drinking_water : ℚ
  irrigation_water : ℚ
  electricity_price : ℚ
  created_by : Nat
  updated_by : Option Nat
  created_at : Nat
  updated_at : Nat
deriving Repr, DecidableEq

/-- JSON snapshot stored in `old_data` / `new_data` of an operation-log row
(the dict literals built in routers/data.py). -/
structure Snapshot where
  date : Option Nat
  powerConsumption : Option ℚ
  drinkingWater : Option ℚ
  irrigationWater : Option ℚ
  electricityPrice : Option ℚ
deriving Repr, DecidableEq

/-- models.py `OperationLog`: one row of `operation_logs`. -/
structure OperationLog where
  id : Nat
  user_id : Nat
  action : String
  table_name : String
  record_id : Option Nat
  old_data : Option Snapshot
  new_data : Option Snapshot
  description : Option String
  ip_address : Option String
  created_at : Nat
deriving Repr, DecidableEq

/-- The database state: the three tables plus autoincrement counters. -/
structure DBState where
  users : List AppUser
  eco_records : List EcoRecord
  operation_logs : List OperationLog
  next_user_id : Nat
  next_record_id : Nat
  next_log_id : Nat
deriving Repr, DecidableEq

/-- Exact rounding of a rational to `n` decimal places, modelling the Python
`round(x, n)` on the idealized (exact) value. -/
def roundTo (x : ℚ) (n : ℕ) : ℚ :=
  (round (x * 10 ^ n) : ℤ) / 10 ^ n

/-- routers/data.py `calculate_efficiency_and_cost`: efficiency is
power over total water, zero when the total water is not positive, rounded to
6 decimals; daily cost is power times price, rounded to 2 decimals. -/
def calculate_efficiency_and_cost (record : EcoRecord) : ℚ × ℚ :=
  let total_water := record.drinking_water + record.irrigation_water
  let efficiency := if total_water > 0 then record.power_consumption / total_water else 0
  let daily_cost := record.power_consumption * record.electricity_price
  (roundTo efficiency 6, roundTo daily_cost 2)

/-- Rounding an integer-valued rational to more decimals is the identity on
that value; in particular `roundTo 0 n = 0`. -/
theorem roundTo_zero (n : ℕ) : roundTo 0 n = 0 := by
  simp [roundTo]

/-- The example record of spec §8: date 2024-01-01, power 100, drinking 30,
irrigation 20, price 25. -/
def exampleRecord : EcoRecord :=
  { id := 1, date := 739251, power_consumption := 100, drinking_water := 30,
    irrigation_water := 20, electricity_price := 25, created_by := 1,
    updated_by := none, created_at := 0, updated_at := 0 }

/-- C2: the derived-metric computation returns efficiency equal to
power/(drinkingWater+irrigationWater) rounded to 6 decimal places when the
water sum is positive and exactly 0 when the water sum is 0, and returns
dailyCost equal to power*price rounded to 2 decimal places; the division is
guarded so the zero-denominator case never errors (the guard returns 0). -/
theorem C2_efficiency_and_cost (r : EcoRecord) :
    (r.drinking_water + r.irrigation_water > 0 →
      (calculate_efficiency_and_cost r).1 =
        roundTo (r.power_consumption / (r.drinking_water + r.irrigation_water)) 6) ∧
    (r.drinking_water + r.irrigation_water = 0 →
      (calculate_efficiency_and_cost r).1 = 0) ∧
    (calculate_efficiency_and_cost r).2 =
      roundTo (r.power_consumption * r.electricity_price) 2 := by
  refine ⟨fun h => ?_, fun h => ?_, rfl⟩
  · simp [calculate_efficiency_and_cost, if_pos h]
  · simp [calculate_efficiency_and_cost, h, roundTo_zero]

/-- C2 witness: on the example record of the spec (power 100, drinking 30,
irrigation 20, price 25) the theorem gives efficiency 2 and daily cost 2500. -/
theorem C2_efficiency_and_cost_witness :
    (calculate_efficiency_and_cost exampleRecord).1 = 2 ∧
    (calculate_efficiency_and_cost exampleRecord).2 = 2500 := by
  have h := C2_efficiency_and_cost exampleRecord
  have h1 := h.1 (by norm_num [exampleRecord])
  have h2 := h.2.2
  constructor
  · rw [h1]
    norm_num [exampleRecord, roundTo]
  · rw [h2]
    norm_num [exampleRecord, roundTo]

/-- An HTTPException raised by a handler (or by the framework boundary):
status code and detail string. -/
structure HttpError where
  statusCode : Nat
  detail : String
deriving Repr, DecidableEq

/-- The field/code pair carried in the `details` member of a structured
validation-failure body. -/
structure FailureDetails where
  field : String
  code : String
deriving Repr, DecidableEq

/-- routers/data.py `format_record_response` output: the camelCase record
payload with the two derived metrics and the creator/updater usernames. -/
structure RecordResponse where
  id : Nat
  date : Nat
  powerConsumption : ℚ
  drinkingWater : ℚ
  irrigationWater : ℚ
  electricityPrice : ℚ
  efficiency : ℚ
  dailyCost : ℚ
  createdBy : Nat
  createdByName : Option String
  updatedBy : Option Nat
  updatedByName : Option String
  createdAt : Nat
  updatedAt : Nat
deriving Repr, DecidableEq

/-- routers/data.py `format_record_response`: computes the derived metrics and
resolves the creator/updater relationships against the users table. -/
def format_record_response (users : List AppUser) (record : EcoRecord) : RecordResponse :=
  let ec := calculate_efficiency_and_cost record
  { id := record.id, date := record.date,
    powerConsumption := record.power_consumption,
    drinkingWater := record.drinking_water,
    irrigationWater := record.irrigation_water,
    electricityPrice := record.electricity_price,
    efficiency := ec.1, dailyCost := ec.2,
    createdBy := record.created_by,
    createdByName := (users.find? (fun u => u.id == record.created_by)).map
      (fun u => u.username),
    updatedBy := record.updated_by,
    updatedByName := record.updated_by.bind (fun uid =>
      (users.find? (fun u => u.id == uid)).map (fun u => u.username)),
    createdAt := record.created_at, updatedAt := record.updated_at }

/-- auth.py `log_operation`, inner body: builds the `OperationLog` row, adds
it and commits; the `fails` oracle models a database error raised by the
add/commit/refresh sequence. -/
def log_operation_body (s : DBState) (user_id : Nat) (action table_name : String)
    (record_id : Option Nat) (old_data new_data : Option Snapshot)
    (description ip_address : Option String) (now : Nat) (fails : Bool) :
    Except String DBState :=
  if fails then .error "database error logging operation"
  else .ok { s with
    operation_logs := s.operation_logs ++
      [{ id := s.next_log_id, user_id := user_id, action := action,
         table_name := table_name, record_id := record_id, old_data := old_data,
         new_data := new_data, description := description,
         ip_address := ip_address, created_at := now }],
    next_log_id := s.next_log_id + 1 }

/-- auth.py `log_operation`: the body wrapped in the two catch-all handlers,
which roll back (discarding only the pending log row) and swallow the
failure, so the caller always receives a state, never an exception. -/
def log_operation (s : DBState) (user_id : Nat) (action table_name : String)
    (record_id : Option Nat) (old_data new_data : Option Snapshot)
    (description ip_address : Option String) (now : Nat) (fails : Bool) : DBState :=
  match log_operation_body s user_id action table_name record_id old_data
      new_data description ip_address now fails with
  | .ok s2 => s2
  | .error _ => s

/-- schemas.py `EcoRecordCreate`: the create/import request payload. -/
structure EcoRecordCreate where
  date : Nat
  powerConsumption : ℚ
  drinkingWater : ℚ
  irrigationWater : ℚ
  electricityPrice : ℚ
deriving Repr, DecidableEq

/-- schemas.py `EcoRecordCreate.validate_positive`: each of the four numeric
fields raises `Value must be positive` when it is negative (zero passes). -/
def validate_create (rd : EcoRecordCreate) : Except String EcoRecordCreate :=
  if rd.powerConsumption < 0 then .error "Value must be positive"
  else if rd.drinkingWater < 0 then .error "Value must be positive"
  else if rd.irrigationWater < 0 then .error "Value must be positive"
  else if rd.electricityPrice < 0 then .error "Value must be positive"
  else .ok rd

/-- The JSON envelope a data handler returns on HTTP 200: either the
structured validation-failure body or a success body with the record. -/
inductive DataBody where
  | failure (error message : String) (details : FailureDetails)
  | success (message : String) (data : RecordResponse)
deriving Repr, DecidableEq

deriving instance DecidableEq for Except

/-- Outcome of a handler call: the response (body or raised HTTPException)
together with the database state it leaves behind. -/
structure DataOutcome where
  response : Except HttpError DataBody
  state : DBState
deriving Repr, DecidableEq

/-- routers/data.py `create_data`: pre-check for an existing record with the
same date (returning the structured duplicate body), otherwise insert and
commit; a duplicate-key race at commit (`raceConflict`) raises IntegrityError
which is caught, rolled back and translated to the same structured body; on
success the audit write is attempted (its failure is swallowed) and the
formatted record is returned. -/
def create_data (s : DBState) (current_user : AppUser) (record_data : EcoRecordCreate)
    (now : Nat) (ip : String) (raceConflict auditFails : Bool) : DataOutcome :=
  match s.eco_records.find? (fun r => r.date == record_data.date) with
  | some _ =>
      { response := .ok (.failure "Validation failed" "Date already exists"
          { field := "date", code := "DUPLICATE_DATE" }),
        state := s }
  | none =>
      if raceConflict then
        { response := .ok (.failure "Validation failed" "Date already exists"
            { field := "date", code := "DUPLICATE_DATE" }),
          state := s }
      else
        let new_record : EcoRecord :=
          { id := s.next_record_id, date := record_data.date,
            power_consumption := record_data.powerConsumption,
            drinking_water := record_data.drinkingWater,
            irrigation_water := record_data.irrigationWater,
            electricity_price := record_data.electricityPrice,
            created_by := current_user.id, updated_by := none,
            created_at := now, updated_at := now }
        let s1 : DBState :=
          { s with eco_records := s.eco_records ++ [new_record],
                   next_record_id := s.next_record_id + 1 }
        let new_data : Snapshot :=
          { date := some record_data.date,
            powerConsumption := some record_data.powerConsumption,
            drinkingWater := some record_data.drinkingWater,
            irrigationWater := some record_data.irrigationWater,
            electricityPrice := some record_data.electricityPrice }
        let s2 := log_operation s1 current_user.id "CREATE" "eco_records"
            (some new_record.id) none (some new_data)
            (some "Created water and electricity record") (some ip) now auditFails
        { response := .ok (.success "Data record created successfully"
            (format_record_response s2.users new_record)),
          state := s2 }

/-- The POST /data endpoint: pydantic validation of `EcoRecordCreate` runs
before the handler; a validator failure yields the framework 422 response
and the handler never runs. -/
def create_endpoint (s : DBState) (current_user : AppUser) (raw : EcoRecordCreate)
    (now : Nat) (ip : String) (raceConflict auditFails : Bool) : DataOutcome :=
  match validate_create raw with
  | .error e => { response := .error { statusCode := 422, detail := e }, state := s }
  | .ok rd => create_data s current_user rd now ip raceConflict auditFails

/-- C1: a create request whose date already has a record returns the
structured validation-failure body (success:false via the failure
constructor, error `Validation failed`, field `date`, code `DUPLICATE_DATE`)
instead of raising, leaves the state unchanged, and the body of this
pre-check path is identical to the body produced when the pre-check misses
and the duplicate-key IntegrityError is caught at commit, so the two paths
are observably equivalent to a client. -/
theorem C1_duplicate_date_paths (s s2 : DBState) (u u2 : AppUser)
    (rd : EcoRecordCreate) (now now2 : Nat) (ip ip2 : String)
    (rc af af2 : Bool) (r0 : EcoRecord)
    (hr0 : r0 ∈ s.eco_records) (hdate : r0.date = rd.date)
    (hfresh : ∀ r ∈ s2.eco_records, r.date ≠ rd.date) :
    (create_data s u rd now ip rc af).response =
      .ok (.failure "Validation failed" "Date already exists"
        { field := "date", code := "DUPLICATE_DATE" }) ∧
    (create_data s u rd now ip rc af).state = s ∧
    (create_data s u rd now ip rc af).response =
      (create_data s2 u2 rd now2 ip2 true af2).response := by
  obtain ⟨r1, hfind⟩ : ∃ r1, s.eco_records.find? (fun r => r.date == rd.date) = some r1 := by
    have h : (s.eco_records.find? (fun r => r.date == rd.date)).isSome :=
      List.find?_isSome.mpr ⟨r0, hr0, by simp [hdate]⟩
    exact Option.isSome_iff_exists.mp h
  have hfind2 : s2.eco_records.find? (fun r => r.date == rd.date) = none :=
    List.find?_eq_none.mpr (fun r hr => by simpa using hfresh r hr)
  refine ⟨?_, ?_, ?_⟩ <;> simp [create_data, hfind, hfind2]

/-- Concrete user used by the witnesses. -/
def userAlice : AppUser :=
  { id := 1, username := "@alice", password := "secret1", role := "user" }

/-- Concrete state holding exactly the example record. -/
def stateWithJan1 : DBState :=
  { users := [userAlice], eco_records := [exampleRecord], operation_logs := [],
    next_user_id := 2, next_record_id := 2, next_log_id := 1 }

/-- Concrete state with no eco records. -/
def emptyState : DBState :=
  { users := [userAlice], eco_records := [], operation_logs := [],
    next_user_id := 2, next_record_id := 1, next_log_id := 1 }

/-- Create payload for the date of the example record. -/
def createJan1 : EcoRecordCreate :=
  { date := 739251, powerConsumption := 100, drinkingWater := 30,
    irrigationWater := 20, electricityPrice := 25 }

/-- C1 witness: on a state already holding the example record, a create for
the same date returns the duplicate body without raising, and it equals the
body of the race path run from a fresh state. -/
theorem C1_duplicate_date_paths_witness :
    (create_data stateWithJan1 userAlice createJan1 7 "ip" false false).response =
      .ok (.failure "Validation failed" "Date already exists"
        { field := "date", code := "DUPLICATE_DATE" }) ∧
    (create_data stateWithJan1 userAlice createJan1 7 "ip" false false).state = stateWithJan1 ∧
    (create_data stateWithJan1 userAlice createJan1 7 "ip" false false).response =
      (create_data emptyState userAlice createJan1 8 "ip2" true true).response :=
  C1_duplicate_date_paths stateWithJan1 emptyState userAlice userAlice createJan1 7 8
    "ip" "ip2" false false true exampleRecord (by simp [stateWithJan1]) rfl
    (by simp [emptyState])

/-- A failed audit write leaves the state exactly as it was (the rollback
discards only the pending log row). -/
theorem log_operation_true (s : DBState) (uid : Nat) (a t : String) (rid : Option Nat)
    (od nd : Option Snapshot) (d ip : Option String) (now : Nat) :
    log_operation s uid a t rid od nd d ip now true = s := rfl

/-- A successful audit write appends exactly one log row. -/
theorem log_operation_false (s : DBState) (uid : Nat) (a t : String) (rid : Option Nat)
    (od nd : Option Snapshot) (d ip : Option String) (now : Nat) :
    log_operation s uid a t rid od nd d ip now false =
      { s with
        operation_logs := s.operation_logs ++
          [{ id := s.next_log_id, user_id := uid, action := a, table_name := t,
             record_id := rid, old_data := od, new_data := nd, description := d,
             ip_address := ip, created_at := now }],
        next_log_id := s.next_log_id + 1 } := rfl

/-- The audit write never touches the users table. -/
theorem log_operation_users (s : DBState) (uid : Nat) (a t : String) (rid : Option Nat)
    (od nd : Option Snapshot) (d ip : Option String) (now : Nat) (fails : Bool) :
    (log_operation s uid a t rid od nd d ip now fails).users = s.users := by
  cases fails <;> rfl

/-- The audit write never touches the eco_records table. -/
theorem log_operation_eco_records (s : DBState) (uid : Nat) (a t : String)
    (rid : Option Nat) (od nd : Option Snapshot) (d ip : Option String) (now : Nat)
    (fails : Bool) :
    (log_operation s uid a t rid od nd d ip now fails).eco_records = s.eco_records := by
  cases fails <;> rfl

/-- schemas.py `EcoRecordUpdate`: the partial update payload, every field
optional. -/
structure EcoRecordUpdate where
  powerConsumption : Option ℚ
  drinkingWater : Option ℚ
  irrigationWater : Option ℚ
  electricityPrice : Option ℚ
deriving Repr, DecidableEq

/-- schemas.py `EcoRecordUpdate.validate_positive`: a provided field must not
be negative (absent fields pass). -/
def validate_update (rd : EcoRecordUpdate) : Except String EcoRecordUpdate :=
  if rd.powerConsumption.any (fun v => decide (v < 0)) then .error "Value must be positive"
  else if rd.drinkingWater.any (fun v => decide (v < 0)) then .error "Value must be positive"
  else if rd.irrigationWater.any (fun v => decide (v < 0)) then .error "Value must be positive"
  else if rd.electricityPrice.any (fun v => decide (v < 0)) then .error "Value must be positive"
  else .ok rd

/-- The field assignments of routers/data.py `update_data`: exactly the
provided fields are written; updater identity and timestamp are always
refreshed; nothing else is assigned. -/
def applyUpdate (record : EcoRecord) (rd : EcoRecordUpdate) (uid now : Nat) : EcoRecord :=
  { record with
    power_consumption := rd.powerConsumption.getD record.power_consumption,
    drinking_water := rd.drinkingWater.getD record.drinking_water,
    irrigation_water := rd.irrigationWater.getD record.irrigation_water,
    electricity_price := rd.electricityPrice.getD record.electricity_price,
    updated_by := some uid, updated_at := now }

/-- Mutating the single ORM object returned by `find?`: apply `f` to the
first row whose id matches, leave every other row untouched. -/
def updateFirstById (record_id : Nat) (f : EcoRecord → EcoRecord) :
    List EcoRecord → List EcoRecord
  | [] => []
  | r :: rest =>
    if r.id == record_id then f r :: rest
    else r :: updateFirstById record_id f rest

/-- Unfolding `find?` on a cons cell whose head satisfies the predicate. -/
theorem find?_cons_pos {α : Type} {p : α → Bool} {x : α} (rest : List α)
    (hx : p x = true) : List.find? p (x :: rest) = some x := by
  simp [List.find?_cons, hx]

/-- Unfolding `find?` on a cons cell whose head fails the predicate. -/
theorem find?_cons_neg {α : Type} {p : α → Bool} {x : α} (rest : List α)
    (hx : p x = false) : List.find? p (x :: rest) = List.find? p rest := by
  simp [List.find?_cons, hx]

/-- A row whose id differs from the updated one survives `updateFirstById`
unchanged. -/
theorem updateFirstById_mem_of_ne (record_id : Nat) (f : EcoRecord → EcoRecord)
    (l : List EcoRecord) (r : EcoRecord) (hr : r ∈ l) (hne : r.id ≠ record_id) :
    r ∈ updateFirstById record_id f l := by
  induction l with
  | nil => exact absurd hr (List.not_mem_nil r)
  | cons x rest ih =>
    by_cases hx : (x.id == record_id) = true
    · rw [updateFirstById, if_pos hx]
      rcases List.mem_cons.mp hr with h | h
      · exact absurd (h ▸ eq_of_beq hx) hne
      · exact List.mem_cons_of_mem _ h
    · rw [updateFirstById, if_neg hx]
      rcases List.mem_cons.mp hr with h | h
      · exact h ▸ List.mem_cons_self x _
      · exact List.mem_cons_of_mem _ (ih h)

/-- The row found by `find?` appears, transformed, in the updated list. -/
theorem updateFirstById_find?_mem (record_id : Nat) (f : EcoRecord → EcoRecord)
    (l : List EcoRecord) (r0 : EcoRecord)
    (hfind : l.find? (fun r => r.id == record_id) = some r0) :
    f r0 ∈ updateFirstById record_id f l := by
  induction l with
  | nil => simp [List.find?] at hfind
  | cons x rest ih =>
    by_cases hx : (x.id == record_id) = true
    · rw [find?_cons_pos rest hx] at hfind
      obtain rfl : x = r0 := by injection hfind
      rw [updateFirstById, if_pos hx]
      exact List.mem_cons_self _ _
    · rw [find?_cons_neg rest (by simpa using hx)] at hfind
      rw [updateFirstById, if_neg hx]
      exact List.mem_cons_of_mem _ (ih hfind)

/-- routers/data.py `update_data`: look up the record by id (404 when
absent), snapshot the previous values before any assignment, assign exactly
the provided fields, always refresh updated_by/updated_at, commit, then write
the audit entry carrying the pre-mutation snapshot as old_data and the
provided fields as new_data. -/
def update_data (s : DBState) (current_user : AppUser) (record_id : Nat)
    (record_data : EcoRecordUpdate) (now : Nat) (ip : String) (auditFails : Bool) :
    DataOutcome :=
  match s.eco_records.find? (fun r => r.id == record_id) with
  | none =>
      { response := .error { statusCode := 404, detail := "Record not found" }, state := s }
  | some record =>
      let old_data : Snapshot :=
        { date := some record.date,
          powerConsumption := some record.power_consumption,
          drinkingWater := some record.drinking_water,
          irrigationWater := some record.irrigation_water,
          electricityPrice := some record.electricity_price }
      let new_record := applyUpdate record record_data current_user.id now
      let update_snapshot : Snapshot :=
        { date := none,
          powerConsumption := record_data.powerConsumption,
          drinkingWater := record_data.drinkingWater,
          irrigationWater := record_data.irrigationWater,
          electricityPrice := record_data.electricityPrice }
      let s1 : DBState :=
        { s with
          eco_records := updateFirstById record_id
            (fun r => applyUpdate r record_data current_user.id now) s.eco_records }
      let s2 := log_operation s1 current_user.id "UPDATE" "eco_records"
          (some record.id) (some old_data) (some update_snapshot)
          (some "Updated water and electricity record") (some ip) now auditFails
      { response := .ok (.success "Data record updated successfully"
          (format_record_response s2.users new_record)),
        state := s2 }

/-- The PUT /data/id endpoint: pydantic validation of `EcoRecordUpdate` runs
before the handler. -/
def update_endpoint (s : DBState) (current_user : AppUser) (record_id : Nat)
    (raw : EcoRecordUpdate) (now : Nat) (ip : String) (auditFails : Bool) : DataOutcome :=
  match validate_update raw with
  | .error e => { response := .error { statusCode := 422, detail := e }, state := s }
  | .ok rd => update_data s current_user record_id rd now ip auditFails

/-- C5: updating an existing record changes exactly the provided fields among
the four numeric fields and every omitted field, including the record date,
created_by (and created_at, id), keeps its prior value; the prior values of
all four fields (and the date) are captured for the old_data of the audit
snapshot; updated_by and updated_at are refreshed on every successful update,
even one providing no fields; rows with a different id are untouched. -/
theorem C5_update_frame (s : DBState) (u : AppUser) (record_id : Nat)
    (rd : EcoRecordUpdate) (now : Nat) (ip : String) (af : Bool) (r0 : EcoRecord)
    (hfind : s.eco_records.find? (fun r => r.id == record_id) = some r0) :
    (∃ newr, newr ∈ (update_data s u record_id rd now ip af).state.eco_records ∧
      (∀ v, rd.powerConsumption = some v → newr.power_consumption = v) ∧
      (rd.powerConsumption = none → newr.power_consumption = r0.power_consumption) ∧
      (∀ v, rd.drinkingWater = some v → newr.drinking_water = v) ∧
      (rd.drinkingWater = none → newr.drinking_water = r0.drinking_water) ∧
      (∀ v, rd.irrigationWater = some v → newr.irrigation_water = v) ∧
      (rd.irrigationWater = none → newr.irrigation_water = r0.irrigation_water) ∧
      (∀ v, rd.electricityPrice = some v → newr.electricity_price = v) ∧
      (rd.electricityPrice = none → newr.electricity_price = r0.electricity_price) ∧
      newr.date = r0.date ∧ newr.created_by = r0.created_by ∧
      newr.created_at = r0.created_at ∧ newr.id = r0.id ∧
      newr.updated_by = some u.id ∧ newr.updated_at = now) ∧
    (∀ r ∈ s.eco_records, r.id ≠ record_id →
      r ∈ (update_data s u record_id rd now ip af).state.eco_records) ∧
    (af = false → ∃ e, (update_data s u record_id rd now ip af).state.operation_logs =
      s.operation_logs ++ [e] ∧
      e.old_data = some
        { date := some r0.date,
          powerConsumption := some r0.power_consumption,
          drinkingWater := some r0.drinking_water,
          irrigationWater := some r0.irrigation_water,
          electricityPrice := some r0.electricity_price } ∧
      e.new_data = some
        { date := none,
          powerConsumption := rd.powerConsumption,
          drinkingWater := rd.drinkingWater,
          irrigationWater := rd.irrigationWater,
          electricityPrice := rd.electricityPrice }) := by
  refine ⟨⟨applyUpdate r0 rd u.id now, ?_, ?_⟩, ?_, ?_⟩
  · simp only [update_data, hfind]
    rw [log_operation_eco_records]
    exact updateFirstById_find?_mem record_id _ s.eco_records r0 hfind
  · refine ⟨fun v hv => ?_, fun hv => ?_, fun v hv => ?_, fun hv => ?_,
      fun v hv => ?_, fun hv => ?_, fun v hv => ?_, fun hv => ?_,
      rfl, rfl, rfl, rfl, rfl, rfl⟩ <;> simp [applyUpdate, hv]
  · intro r hr hne
    simp only [update_data, hfind]
    rw [log_operation_eco_records]
    exact updateFirstById_mem_of_ne record_id _ s.eco_records r hr hne
  · intro haf
    subst haf
    simp only [update_data, hfind]
    rw [log_operation_false]
    exact ⟨_, rfl, rfl, rfl⟩

/-- The concrete partial update used by the C5 witness: provides only the
power consumption. -/
def updPower : EcoRecordUpdate :=
  { powerConsumption := some 120, drinkingWater := none,
    irrigationWater := none, electricityPrice := none }

/-- C5 witness: on the state holding the example record, an update of record
1 providing only powerConsumption keeps the other fields, the date and
created_by, refreshes updated_by/updated_at, and snapshots the prior values
in the audit entry. -/
theorem C5_update_frame_witness :
    (∃ newr, newr ∈ (update_data stateWithJan1 userAlice 1 updPower 9 "ip" false).state.eco_records ∧
      (∀ v, updPower.powerConsumption = some v → newr.power_consumption = v) ∧
      (updPower.powerConsumption = none → newr.power_consumption = exampleRecord.power_consumption) ∧
      (∀ v, updPower.drinkingWater = some v → newr.drinking_water = v) ∧
      (updPower.drinkingWater = none → newr.drinking_water = exampleRecord.drinking_water) ∧
      (∀ v, updPower.irrigationWater = some v → newr.irrigation_water = v) ∧
      (updPower.irrigationWater = none → newr.irrigation_water = exampleRecord.irrigation_water) ∧
      (∀ v, updPower.electricityPrice = some v → newr.electricity_price = v) ∧
      (updPower.electricityPrice = none → newr.electricity_price = exampleRecord.electricity_price) ∧
      newr.date = exampleRecord.date ∧ newr.created_by = exampleRecord.created_by ∧
      newr.created_at = exampleRecord.created_at ∧ newr.id = exampleRecord.id ∧
      newr.updated_by = some userAlice.id ∧ newr.updated_at = 9) ∧
    (∀ r ∈ stateWithJan1.eco_records, r.id ≠ 1 →
      r ∈ (update_data stateWithJan1 userAlice 1 updPower 9 "ip" false).state.eco_records) ∧
    (false = false → ∃ e,
      (update_data stateWithJan1 userAlice 1 updPower 9 "ip" false).state.operation_logs =
        stateWithJan1.operation_logs ++ [e] ∧
      e.old_data = some
        { date := some exampleRecord.date,
          powerConsumption := some exampleRecord.power_consumption,
          drinkingWater := some exampleRecord.drinking_water,
          irrigationWater := some exampleRecord.irrigation_water,
          electricityPrice := some exampleRecord.electricity_price } ∧
      e.new_data = some
        { date := none,
          powerConsumption := updPower.powerConsumption,
          drinkingWater := updPower.drinkingWater,
          irrigationWater := updPower.irrigationWater,
          electricityPrice := updPower.electricityPrice }) :=
  C5_update_frame stateWithJan1 userAlice 1 updPower 9 "ip" false exampleRecord (by rfl)

/-- A plain success/message envelope (delete response shape). -/
structure MessageBody where
  success : Bool
  message : String
deriving Repr, DecidableEq

/-- Outcome of the delete handler. -/
structure MessageOutcome where
  response : Except HttpError MessageBody
  state : DBState
deriving Repr, DecidableEq

/-- Removing the single ORM object returned by `find?`: drop the first row
whose id matches. -/
def removeFirstById (record_id : Nat) : List EcoRecord → List EcoRecord
  | [] => []
  | r :: rest => if r.id == record_id then rest else r :: removeFirstById record_id rest

/-- routers/data.py `delete_data`: look up by id (404 when absent), snapshot
the row, delete it, commit, then write the audit entry carrying the
snapshot. -/
def delete_data (s : DBState) (current_user : AppUser) (record_id : Nat)
    (now : Nat) (ip : String) (auditFails : Bool) : MessageOutcome :=
  match s.eco_records.find? (fun r => r.id == record_id) with
  | none =>
      { response := .error { statusCode := 404, detail := "Record not found" }, state := s }
  | some record =>
      let old_data : Snapshot :=
        { date := some record.date,
          powerConsumption := some record.power_consumption,
          drinkingWater := some record.drinking_water,
          irrigationWater := some record.irrigation_water,
          electricityPrice := some record.electricity_price }
      let s1 : DBState := { s with eco_records := removeFirstById record_id s.eco_records }
      let s2 := log_operation s1 current_user.id "DELETE" "eco_records" (some record_id)
          (some old_data) none (some "Deleted water and electricity record") (some ip)
          now auditFails
      { response := .ok { success := true, message := "Data record deleted successfully" },
        state := s2 }

/-- schemas.py `ClearDataRequest` at the request boundary: the body must
carry `confirm` (a missing field is a pydantic missing-field error) and
`validate_confirm` raises unless it is true; either failure yields the
framework 422 before the handler runs. -/
def validate_clear (confirm : Option Bool) : Except String Unit :=
  match confirm with
  | none => .error "Field required"
  | some false => .error "Confirm must be true to delete all data"
  | some true => .ok ()

/-- The clear-all success envelope: deletedCount and the warning string. -/
structure ClearBody where
  success : Bool
  message : String
  deletedCount : Nat
  warning : String
deriving Repr, DecidableEq

/-- Outcome of the clear-all handler. -/
structure ClearOutcome where
  response : Except HttpError ClearBody
  state : DBState
deriving Repr, DecidableEq

/-- routers/data.py `clear_all_data`: count the rows, delete all of them
unconditionally, commit, then write one summary audit entry (record_id
absent) and return the pre-deletion count. -/
def clear_all_data (s : DBState) (current_user : AppUser) (now : Nat) (ip : String)
    (auditFails : Bool) : ClearOutcome :=
  let count := s.eco_records.length
  let s1 : DBState := { s with eco_records := [] }
  let s2 := log_operation s1 current_user.id "DELETE" "eco_records" none none none
      (some ("Cleared all data (" ++ toString count ++ " records)")) (some ip) now auditFails
  { response := .ok { success := true, message := "All data records deleted successfully",
                      deletedCount := count,
                      warning := "All system data has been permanently deleted" },
    state := s2 }

/-- The DELETE /data endpoint: `ClearDataRequest` validation runs before the
handler. -/
def clear_endpoint (s : DBState) (current_user : AppUser) (confirm : Option Bool)
    (now : Nat) (ip : String) (auditFails : Bool) : ClearOutcome :=
  match validate_clear confirm with
  | .error e => { response := .error { statusCode := 422, detail := e }, state := s }
  | .ok _ => clear_all_data s current_user now ip auditFails

/-- C6: a clear-all request whose confirmation flag is absent or false is
rejected at the boundary (a 422 validation error) leaving the records
unchanged; with the flag true it deletes every eco_record unconditionally,
returns deletedCount equal to the number of records present before deletion,
and (when the audit write succeeds) appends exactly one summary audit entry
whose record_id is absent. -/
theorem C6_clear_confirmation (s : DBState) (u : AppUser) (confirm : Option Bool)
    (now : Nat) (ip : String) (af : Bool) :
    (confirm = none ∨ confirm = some false →
      (∃ e, (clear_endpoint s u confirm now ip af).response = .error e ∧
        e.statusCode = 422) ∧
      (clear_endpoint s u confirm now ip af).state = s) ∧
    (confirm = some true →
      (clear_endpoint s u confirm now ip af).response =
        .ok { success := true, message := "All data records deleted successfully",
              deletedCount := s.eco_records.length,
              warning := "All system data has been permanently deleted" } ∧
      (clear_endpoint s u confirm now ip af).state.eco_records = [] ∧
      (af = false → ∃ e, (clear_endpoint s u confirm now ip af).state.operation_logs =
        s.operation_logs ++ [e] ∧ e.record_id = none)) := by
  constructor
  · rintro (rfl | rfl)
    · exact ⟨⟨_, rfl, rfl⟩, rfl⟩
    · exact ⟨⟨_, rfl, rfl⟩, rfl⟩
  · rintro rfl
    refine ⟨rfl, ?_, ?_⟩
    · simp only [clear_endpoint, validate_clear, clear_all_data]
      rw [log_operation_eco_records]
    · rintro rfl
      simp only [clear_endpoint, validate_clear, clear_all_data]
      rw [log_operation_false]
      exact ⟨_, rfl, rfl⟩

/-- C6 witness: on the state with one record, confirm=false leaves the state
unchanged with a 422, and confirm=true deletes everything, reports
deletedCount 1 and appends one summary entry without record_id. -/
theorem C6_clear_confirmation_witness :
    (clear_endpoint stateWithJan1 userAlice (some false) 9 "ip" false).state = stateWithJan1 ∧
    (clear_endpoint stateWithJan1 userAlice (some true) 9 "ip" false).response =
      .ok { success := true, message := "All data records deleted successfully",
            deletedCount := 1,
            warning := "All system data has been permanently deleted" } ∧
    (clear_endpoint stateWithJan1 userAlice (some true) 9 "ip" false).state.eco_records = [] ∧
    (∃ e, (clear_endpoint stateWithJan1 userAlice (some true) 9 "ip" false).state.operation_logs =
      stateWithJan1.operation_logs ++ [e] ∧ e.record_id = none) := by
  have h1 := C6_clear_confirmation stateWithJan1 userAlice (some false) 9 "ip" false
  have h2 := C6_clear_confirmation stateWithJan1 userAlice (some true) 9 "ip" false
  have h2c := h2.2 rfl
  exact ⟨(h1.1 (Or.inr rfl)).2, h2c.1, h2c.2.1, h2c.2.2 rfl⟩

/-- Accumulated outcome of the import loop: the three counters, the error
list, and the pending in-memory changes that the final commit applies. -/
structure ImportAcc where
  imported : Nat
  updated : Nat
  skipped : Nat
  errors : List String
  pendingUpdates : List EcoRecordCreate
  pendingAdds : List EcoRecord
deriving Repr, DecidableEq

/-- The new row built by the insert branch of the import loop. -/
def mkImportRecord (rd : EcoRecordCreate) (uid now rid : Nat) : EcoRecord :=
  { id := rid, date := rd.date, power_consumption := rd.powerConsumption,
    drinking_water := rd.drinkingWater, irrigation_water := rd.irrigationWater,
    electricity_price := rd.electricityPrice, created_by := uid, updated_by := none,
    created_at := now, updated_at := now }

/-- The in-memory field assignments of the overwrite branch of the import
loop: the four numeric quantities plus updated_by/updated_at; the date is
not assigned. -/
def applyImportUpdate (r : EcoRecord) (rd : EcoRecordCreate) (uid now : Nat) : EcoRecord :=
  { r with power_consumption := rd.powerConsumption,
           drinking_water := rd.drinkingWater,
           irrigation_water := rd.irrigationWater,
           electricity_price := rd.electricityPrice,
           updated_by := some uid, updated_at := now }

/-- The per-record loop of routers/data.py `import_data`.  Because the
session has autoflush disabled, the in-loop existence lookup consults only
the committed table; rows added by earlier iterations are pending and
invisible to it.  Each input record carries a failure oracle: a raised
per-record exception appends one message to the error list and the loop
continues. -/
def import_loop (committed : List EcoRecord) (overwrite : Bool) (uid now : Nat) :
    List (EcoRecordCreate × Bool) → Nat → ImportAcc
  | [], _ =>
    { imported := 0, updated := 0, skipped := 0, errors := [],
      pendingUpdates := [], pendingAdds := [] }
  | (rd, fails) :: rest, nextId =>
    if fails then
      let acc := import_loop committed overwrite uid now rest nextId
      { acc with errors := ("Error importing record for " ++ toString rd.date) :: acc.errors }
    else
      match committed.find? (fun r => r.date == rd.date) with
      | some _ =>
        if overwrite then
          let acc := import_loop committed overwrite uid now rest nextId
          { acc with updated := acc.updated + 1,
                     pendingUpdates := rd :: acc.pendingUpdates }
        else
          let acc := import_loop committed overwrite uid now rest nextId
          { acc with skipped := acc.skipped + 1 }
      | none =>
        let acc := import_loop committed overwrite uid now rest (nextId + 1)
        { acc with imported := acc.imported + 1,
                   pendingAdds := mkImportRecord rd uid now nextId :: acc.pendingAdds }

/-- Commit-time application of the recorded in-memory updates, in processing
order (a later update of the same row wins, as with repeated mutation of the
same ORM object). -/
def applyPendingUpdates (uid now : Nat) (recs : List EcoRecord) :
    List EcoRecordCreate → List EcoRecord
  | [] => recs
  | rd :: rest =>
    applyPendingUpdates uid now
      (recs.map (fun r => if r.date == rd.date then applyImportUpdate r rd uid now else r))
      rest

/-- The import response data. -/
structure ImportBody where
  imported : Nat
  updated : Nat
  skipped : Nat
  errors : List String
deriving Repr, DecidableEq

/-- Outcome of the import handler. -/
structure ImportOutcome where
  response : Except HttpError ImportBody
  state : DBState
deriving Repr, DecidableEq

/-- routers/data.py `import_data`: run the loop against the committed table,
then commit once; the commit applies the pending updates and inserts and
raises (translated to HTTP 500 with rollback) when the resulting table would
violate the unique-date constraint, which happens exactly when the batch
added two pending rows with the same date; on success one summary audit
entry is written. -/
def import_data (s : DBState) (current_user : AppUser)
    (records : List (EcoRecordCreate × Bool)) (overwriteExisting : Bool)
    (now : Nat) (ip : String) (auditFails : Bool) : ImportOutcome :=
  let acc := import_loop s.eco_records overwriteExisting current_user.id now records
      s.next_record_id
  let updatedRecords := applyPendingUpdates current_user.id now s.eco_records
      acc.pendingUpdates
  let finalRecords := updatedRecords ++ acc.pendingAdds
  if (finalRecords.map (fun r => r.date)).Nodup then
    let s1 : DBState :=
      { s with
        eco_records := finalRecords,
        next_record_id := s.next_record_id + acc.pendingAdds.length }
    let s2 := log_operation s1 current_user.id "CREATE" "eco_records" none none none
        (some "Batch imported data") (some ip) now auditFails
    { response := .ok { imported := acc.imported, updated := acc.updated,
                        skipped := acc.skipped, errors := acc.errors },
      state := s2 }
  else
    { response := .error { statusCode := 500, detail := "Failed to import data" },
      state := s }

/-- Pydantic validation of the `records` list of `EcoRecordImport`: every
element is an `EcoRecordCreate` and any validator failure rejects the whole
request. -/
def validate_import (records : List EcoRecordCreate) : Except String (List EcoRecordCreate) :=
  match records with
  | [] => .ok []
  | rd :: rest =>
    match validate_create rd with
    | .error e => .error e
    | .ok rd2 =>
      match validate_import rest with
      | .error e => .error e
      | .ok rest2 => .ok (rd2 :: rest2)

/-- The POST /data/import endpoint: pydantic validates every record before
the handler runs. -/
def import_endpoint (s : DBState) (current_user : AppUser)
    (records : List (EcoRecordCreate × Bool)) (overwriteExisting : Bool)
    (now : Nat) (ip : String) (auditFails : Bool) : ImportOutcome :=
  match validate_import (records.map (fun p => p.1)) with
  | .error e => { response := .error { statusCode := 422, detail := e }, state := s }
  | .ok _ => import_data s current_user records overwriteExisting now ip auditFails

/-- A committed row exists for this date. -/
def dateExists (recs : List EcoRecord) (d : Nat) : Bool :=
  (recs.find? (fun r => r.date == d)).isSome

/-- Characterization of `dateExists = false`: no committed row has the date. -/
theorem dateExists_false_iff (recs : List EcoRecord) (d : Nat) :
    dateExists recs d = false ↔ ∀ r ∈ recs, r.date ≠ d := by
  constructor
  · intro h r hr hd
    cases hfind : recs.find? (fun r => r.date == d) with
    | none =>
      have := List.find?_eq_none.mp hfind r hr
      simp [hd] at this
    | some x => rw [dateExists, hfind] at h; simp at h
  · intro h
    rw [dateExists, List.find?_eq_none.mpr (fun r hr => by simpa using h r hr)]
    rfl

/-- Characterization of `dateExists = true`: some committed row has the date. -/
theorem dateExists_true_iff (recs : List EcoRecord) (d : Nat) :
    dateExists recs d = true ↔ ∃ r ∈ recs, r.date = d := by
  simp [dateExists, List.find?_isSome]

/-- Every input record of a batch lands in exactly one of the four buckets:
the three counters and the error list sum to the batch length. -/
theorem import_loop_total (committed : List EcoRecord) (ow : Bool) (uid now : Nat)
    (rs : List (EcoRecordCreate × Bool)) (nid : Nat) :
    (import_loop committed ow uid now rs nid).imported +
      (import_loop committed ow uid now rs nid).updated +
      (import_loop committed ow uid now rs nid).skipped +
      (import_loop committed ow uid now rs nid).errors.length = rs.length := by
  induction rs generalizing nid with
  | nil => rfl
  | cons p rest ih =>
    obtain ⟨rd, fails⟩ := p
    have hA := ih nid
    have hB := ih (nid + 1)
    cases fails
    · cases hf : committed.find? (fun r => r.date == rd.date) with
      | none =>
        simp [import_loop, hf]
        omega
      | some r1 =>
        cases ow <;>
          · simp [import_loop, hf]
            omega
    · simp [import_loop]
      omega

/-- Classification of the counters: imported counts the non-failing fresh
dates, updated the non-failing existing dates under overwrite, skipped the
non-failing existing dates otherwise, and the error list the failing
records, all relative to the committed table. -/
theorem import_loop_counts (committed : List EcoRecord) (ow : Bool) (uid now : Nat)
    (rs : List (EcoRecordCreate × Bool)) (nid : Nat) :
    (import_loop committed ow uid now rs nid).imported =
      (rs.filter (fun p => !p.2 && !dateExists committed p.1.date)).length ∧
    (import_loop committed ow uid now rs nid).updated =
      (rs.filter (fun p => !p.2 && dateExists committed p.1.date && ow)).length ∧
    (import_loop committed ow uid now rs nid).skipped =
      (rs.filter (fun p => !p.2 && dateExists committed p.1.date && !ow)).length ∧
    (import_loop committed ow uid now rs nid).errors.length =
      (rs.filter (fun p => p.2)).length := by
  induction rs generalizing nid with
  | nil => exact ⟨rfl, rfl, rfl, rfl⟩
  | cons p rest ih =>
    obtain ⟨rd, fails⟩ := p
    obtain ⟨a1, a2, a3, a4⟩ := ih nid
    obtain ⟨b1, b2, b3, b4⟩ := ih (nid + 1)
    cases fails
    · cases hf : committed.find? (fun r => r.date == rd.date) with
      | none =>
        refine ⟨?_, ?_, ?_, ?_⟩ <;>
          simp [import_loop, hf, dateExists, List.filter_cons, a1, a2, a3, a4, b1, b2, b3, b4]
      | some r1 =>
        cases ow <;>
          (refine ⟨?_, ?_, ?_, ?_⟩ <;>
            simp [import_loop, hf, dateExists, List.filter_cons, a1, a2, a3, a4])
    · refine ⟨?_, ?_, ?_, ?_⟩ <;>
        simp [import_loop, List.filter_cons, a1, a2, a3, a4]

/-- The pending updates are exactly the payloads of the non-failing existing
dates, in processing order, and only under overwrite. -/
theorem import_loop_pendingUpdates (committed : List EcoRecord) (ow : Bool)
    (uid now : Nat) (rs : List (EcoRecordCreate × Bool)) (nid : Nat) :
    (import_loop committed ow uid now rs nid).pendingUpdates =
      if ow then
        (rs.filter (fun p => !p.2 && dateExists committed p.1.date)).map (fun p => p.1)
      else [] := by
  induction rs generalizing nid with
  | nil => cases ow <;> rfl
  | cons p rest ih =>
    obtain ⟨rd, fails⟩ := p
    have hA := ih nid
    have hB := ih (nid + 1)
    cases fails
    · cases hf : committed.find? (fun r => r.date == rd.date) with
      | none =>
        cases ow <;> simp [import_loop, hf, dateExists, List.filter_cons, hA, hB]
      | some r1 =>
        cases ow <;> simp [import_loop, hf, dateExists, List.filter_cons, hA]
    · cases ow <;> simp [import_loop, List.filter_cons, hA]

/-- The dates of the pending inserts are exactly the dates of the non-failing
fresh input records, in processing order. -/
theorem import_loop_pendingAdds_dates (committed : List EcoRecord) (ow : Bool)
    (uid now : Nat) (rs : List (EcoRecordCreate × Bool)) (nid : Nat) :
    (import_loop committed ow uid now rs nid).pendingAdds.map (fun r => r.date) =
      (rs.filter (fun p => !p.2 && !dateExists committed p.1.date)).map
        (fun p => p.1.date) := by
  induction rs generalizing nid with
  | nil => rfl
  | cons p rest ih =>
    obtain ⟨rd, fails⟩ := p
    have hA := ih nid
    have hB := ih (nid + 1)
    cases fails
    · cases hf : committed.find? (fun r => r.date == rd.date) with
      | none => simp [import_loop, hf, dateExists, List.filter_cons, hB, mkImportRecord]
      | some r1 => cases ow <;> simp [import_loop, hf, dateExists, List.filter_cons, hA]
    · simp [import_loop, List.filter_cons, hA]

/-- Every pending insert comes from a non-failing fresh input record. -/
theorem import_loop_pendingAdds_shape (committed : List EcoRecord) (ow : Bool)
    (uid now : Nat) (rs : List (EcoRecordCreate × Bool)) (nid : Nat) (a : EcoRecord)
    (ha : a ∈ (import_loop committed ow uid now rs nid).pendingAdds) :
    ∃ p ∈ rs, p.2 = false ∧ dateExists committed p.1.date = false ∧
      ∃ rid, a = mkImportRecord p.1 uid now rid := by
  induction rs generalizing nid with
  | nil => simp [import_loop] at ha
  | cons p rest ih =>
    obtain ⟨rd, fails⟩ := p
    cases fails
    · cases hf : committed.find? (fun r => r.date == rd.date) with
      | none =>
        simp only [import_loop, hf] at ha
        simp only [Bool.false_eq_true, if_false, List.mem_cons] at ha
        rcases ha with rfl | ha
        · exact ⟨(rd, false), List.mem_cons_self _ _, rfl,
            by rw [dateExists, hf]; rfl, nid, rfl⟩
        · obtain ⟨p2, hp2, h1, h2, rid, h3⟩ := ih (nid + 1) ha
          exact ⟨p2, List.mem_cons_of_mem _ hp2, h1, h2, rid, h3⟩
      | some r1 =>
        cases ow <;>
          · simp only [import_loop, hf, Bool.false_eq_true, if_false, Bool.true_eq_false,
              if_true] at ha
            obtain ⟨p2, hp2, h1, h2, rid, h3⟩ := ih nid ha
            exact ⟨p2, List.mem_cons_of_mem _ hp2, h1, h2, rid, h3⟩
    · simp only [import_loop, if_true] at ha
      obtain ⟨p2, hp2, h1, h2, rid, h3⟩ := ih nid ha
      exact ⟨p2, List.mem_cons_of_mem _ hp2, h1, h2, rid, h3⟩

/-- Every non-failing fresh input record produces a pending insert built from
its payload. -/
theorem import_loop_mem_pendingAdds (committed : List EcoRecord) (ow : Bool)
    (uid now : Nat) (rs : List (EcoRecordCreate × Bool)) (nid : Nat)
    (rd : EcoRecordCreate) (hp : (rd, false) ∈ rs)
    (hfresh : dateExists committed rd.date = false) :
    ∃ rid, mkImportRecord rd uid now rid ∈
      (import_loop committed ow uid now rs nid).pendingAdds := by
  induction rs generalizing nid with
  | nil => cases hp
  | cons p rest ih =>
    rcases List.mem_cons.mp hp with rfl | hmem
    · have hf : committed.find? (fun r => r.date == rd.date) = none := by
        cases hfind : committed.find? (fun r => r.date == rd.date) with
        | none => rfl
        | some x => rw [dateExists, hfind] at hfresh; simp at hfresh
      refine ⟨nid, ?_⟩
      simp [import_loop, hf, mkImportRecord]
    · obtain ⟨rd2, fails2⟩ := p
      cases fails2
      · cases hf : committed.find? (fun r => r.date == rd2.date) with
        | none =>
          obtain ⟨rid, hr⟩ := ih (nid + 1) hmem
          exact ⟨rid, by simp [import_loop, hf, hr]⟩
        | some r1 =>
          obtain ⟨rid, hr⟩ := ih nid hmem
          exact ⟨rid, by cases ow <;> simp [import_loop, hf, hr]⟩
      · obtain ⟨rid, hr⟩ := ih nid hmem
        exact ⟨rid, by simp [import_loop, hr]⟩

/-- Commit-time updates never change the date of any row. -/
theorem applyPendingUpdates_map_date (uid now : Nat) (ups : List EcoRecordCreate) :
    ∀ recs : List EcoRecord,
      (applyPendingUpdates uid now recs ups).map (fun r => r.date) =
        recs.map (fun r => r.date) := by
  induction ups with
  | nil => intro recs; rfl
  | cons rd rest ih =>
    intro recs
    rw [applyPendingUpdates, ih, List.map_map]
    congr 1
    funext r
    simp only [Function.comp_apply]
    split <;> rfl

/-- A row targeted by none of the updates survives the commit unchanged. -/
theorem applyPendingUpdates_not_targeted (uid now : Nat) (ups : List EcoRecordCreate)
    (r : EcoRecord) :
    ∀ recs : List EcoRecord, r ∈ recs → (∀ rd ∈ ups, r.date ≠ rd.date) →
      r ∈ applyPendingUpdates uid now recs ups := by
  induction ups with
  | nil => intro recs hr _; exact hr
  | cons rd rest ih =>
    intro recs hr hnot
    rw [applyPendingUpdates]
    apply ih
    · refine List.mem_map.mpr ⟨r, hr, ?_⟩
      have h : (r.date == rd.date) = false := by
        simpa using hnot rd (List.mem_cons_self _ _)
      simp [h]
    · intro rd2 h2
      exact hnot rd2 (List.mem_cons_of_mem _ h2)

/-- A row whose date is targeted by exactly one update (the update list has
pairwise distinct dates) appears in the committed table with that update
applied. -/
theorem applyPendingUpdates_targeted (uid now : Nat) (ups : List EcoRecordCreate)
    (rd : EcoRecordCreate) :
    ∀ recs : List EcoRecord, rd ∈ ups → (ups.map (fun u2 => u2.date)).Nodup →
      ∀ r0 ∈ recs, r0.date = rd.date →
        applyImportUpdate r0 rd uid now ∈ applyPendingUpdates uid now recs ups := by
  induction ups with
  | nil => intro recs h; cases h
  | cons u2 rest ih =>
    intro recs hrd hnodup r0 hr0 hd
    rw [applyPendingUpdates]
    rcases List.mem_cons.mp hrd with rfl | hmem
    · apply applyPendingUpdates_not_targeted
      · refine List.mem_map.mpr ⟨r0, hr0, ?_⟩
        simp [hd]
      · intro rd2 h2 heq
        have hdates : rd.date ∉ rest.map (fun u3 => u3.date) :=
          (List.nodup_cons.mp hnodup).1
        have hud : (applyImportUpdate r0 rd uid now).date = rd.date := by
          simp [applyImportUpdate, hd]
        rw [hud] at heq
        exact hdates (heq ▸ List.mem_map.mpr ⟨rd2, h2, rfl⟩)
    · have hne : r0.date ≠ u2.date := by
        intro heq
        have hdates : u2.date ∉ rest.map (fun u3 => u3.date) :=
          (List.nodup_cons.mp hnodup).1
        apply hdates
        rw [← heq, hd]
        exact List.mem_map.mpr ⟨rd, hmem, rfl⟩
      apply ih _ hmem (List.nodup_cons.mp hnodup).2
      · refine List.mem_map.mpr ⟨r0, hr0, ?_⟩
        have h : (r0.date == u2.date) = false := by simpa using hne
        simp [h]
      · exact hd

/-- Commit-time updates preserve non-negativity of the four quantities when
the update payloads are themselves non-negative. -/
theorem applyPendingUpdates_nonneg (uid now : Nat) (ups : List EcoRecordCreate)
    (hups : ∀ rd ∈ ups, 0 ≤ rd.powerConsumption ∧ 0 ≤ rd.drinkingWater ∧
      0 ≤ rd.irrigationWater ∧ 0 ≤ rd.electricityPrice) :
    ∀ recs : List EcoRecord,
      (∀ r ∈ recs, 0 ≤ r.power_consumption ∧ 0 ≤ r.drinking_water ∧
        0 ≤ r.irrigation_water ∧ 0 ≤ r.electricity_price) →
      ∀ r ∈ applyPendingUpdates uid now recs ups,
        0 ≤ r.power_consumption ∧ 0 ≤ r.drinking_water ∧
        0 ≤ r.irrigation_water ∧ 0 ≤ r.electricity_price := by
  induction ups with
  | nil => intro recs hrecs; exact hrecs
  | cons rd rest ih =>
    intro recs hrecs
    rw [applyPendingUpdates]
    apply ih
    · intro rd2 h2
      exact hups rd2 (List.mem_cons_of_mem _ h2)
    · intro r hr
      obtain ⟨r0, hr0, rfl⟩ := List.mem_map.mp hr
      by_cases h : (r0.date == rd.date) = true
      · have hv := hups rd (List.mem_cons_self _ _)
        simp only [if_pos h]
        exact ⟨by simp [applyImportUpdate, hv.1], by simp [applyImportUpdate, hv.2.1],
          by simp [applyImportUpdate, hv.2.2.1], by simp [applyImportUpdate, hv.2.2.2]⟩
      · simp only [if_neg h]
        exact hrecs r0 hr0

/-- The state invariant of spec §3 on the eco_records table: at most one
record per calendar date and all four numeric quantities non-negative. -/
def RecordsInvariant (recs : List EcoRecord) : Prop :=
  (recs.map (fun r => r.date)).Nodup ∧
  ∀ r ∈ recs, 0 ≤ r.power_consumption ∧ 0 ≤ r.drinking_water ∧
    0 ≤ r.irrigation_water ∧ 0 ≤ r.electricity_price

/-- C3: batch import classifies each input record against the existing
table: a non-failing record whose date exists is overwritten and counted as
updated when overwriteExisting is true, else left unchanged and counted as
skipped; a non-failing fresh-date record is inserted and counted as
imported; each per-record failure appends one entry to the error list while
processing continues; and the returned counts satisfy
imported + updated + skipped + length(errors) = length(input). -/
theorem C3_import_batch (s : DBState) (u : AppUser) (rs : List (EcoRecordCreate × Bool))
    (ow : Bool) (now : Nat) (ip : String) (af : Bool) :
    (∀ body, (import_data s u rs ow now ip af).response = .ok body →
      body.imported + body.updated + body.skipped + body.errors.length = rs.length ∧
      body.imported =
        (rs.filter (fun p => !p.2 && !dateExists s.eco_records p.1.date)).length ∧
      body.updated =
        (rs.filter (fun p => !p.2 && dateExists s.eco_records p.1.date && ow)).length ∧
      body.skipped =
        (rs.filter (fun p => !p.2 && dateExists s.eco_records p.1.date && !ow)).length ∧
      body.errors.length = (rs.filter (fun p => p.2)).length) ∧
    (RecordsInvariant s.eco_records → (rs.map (fun p => p.1.date)).Nodup →
      (∃ body, (import_data s u rs ow now ip af).response = .ok body) ∧
      ∀ rd : EcoRecordCreate, (rd, false) ∈ rs →
        (dateExists s.eco_records rd.date = false →
          ∃ rid, mkImportRecord rd u.id now rid ∈
            (import_data s u rs ow now ip af).state.eco_records) ∧
        (∀ r0 ∈ s.eco_records, r0.date = rd.date →
          (ow = true → applyImportUpdate r0 rd u.id now ∈
            (import_data s u rs ow now ip af).state.eco_records) ∧
          (ow = false → r0 ∈ (import_data s u rs ow now ip af).state.eco_records))) := by
  have hLoop := import_loop_counts s.eco_records ow u.id now rs s.next_record_id
  have hTot := import_loop_total s.eco_records ow u.id now rs s.next_record_id
  constructor
  · intro body hbody
    simp only [import_data] at hbody
    split at hbody
    case isTrue hcond =>
      simp only [Except.ok.injEq] at hbody
      subst hbody
      exact ⟨hTot, hLoop.1, hLoop.2.1, hLoop.2.2.1, hLoop.2.2.2⟩
    case isFalse hcond => simp at hbody
  · intro hInv hNodup
    have hAddsD := import_loop_pendingAdds_dates s.eco_records ow u.id now rs
      s.next_record_id
    have hNodupAdds :
        (((import_loop s.eco_records ow u.id now rs s.next_record_id).pendingAdds).map
          (fun r => r.date)).Nodup := by
      rw [hAddsD]
      exact List.Nodup.sublist ((List.filter_sublist rs).map (fun p => p.1.date)) hNodup
    have hFresh : ∀ d ∈ ((import_loop s.eco_records ow u.id now rs
        s.next_record_id).pendingAdds).map (fun r => r.date),
        d ∉ s.eco_records.map (fun r => r.date) := by
      intro d hd
      rw [hAddsD] at hd
      obtain ⟨p, hp, rfl⟩ := List.mem_map.mp hd
      have hfl := (List.mem_filter.mp hp).2
      have hfd : dateExists s.eco_records p.1.date = false := by
        simp only [Bool.and_eq_true, Bool.not_eq_true'] at hfl
        exact hfl.2
      intro hmem
      obtain ⟨r, hr, hrd⟩ := List.mem_map.mp hmem
      exact ((dateExists_false_iff _ _).mp hfd r hr) hrd
    have hc : (((applyPendingUpdates u.id now s.eco_records
        (import_loop s.eco_records ow u.id now rs s.next_record_id).pendingUpdates) ++
        (import_loop s.eco_records ow u.id now rs s.next_record_id).pendingAdds).map
        (fun r => r.date)).Nodup := by
      rw [List.map_append, applyPendingUpdates_map_date]
      exact List.Nodup.append hInv.1 hNodupAdds (fun d hd1 hd2 => hFresh d hd2 hd1)
    have hstate : (import_data s u rs ow now ip af).state.eco_records =
        (applyPendingUpdates u.id now s.eco_records
          (import_loop s.eco_records ow u.id now rs s.next_record_id).pendingUpdates) ++
        (import_loop s.eco_records ow u.id now rs s.next_record_id).pendingAdds := by
      simp only [import_data]
      split
      case isTrue h => rw [log_operation_eco_records]
      case isFalse h => exact absurd hc h
    constructor
    · have hok : (import_data s u rs ow now ip af).response = .ok
          { imported := (import_loop s.eco_records ow u.id now rs s.next_record_id).imported,
            updated := (import_loop s.eco_records ow u.id now rs s.next_record_id).updated,
            skipped := (import_loop s.eco_records ow u.id now rs s.next_record_id).skipped,
            errors := (import_loop s.eco_records ow u.id now rs s.next_record_id).errors } := by
        simp only [import_data]
        split
        case isTrue h => rfl
        case isFalse h => exact absurd hc h
      exact ⟨_, hok⟩
    · intro rd hrd
      constructor
      · intro hfreshd
        obtain ⟨rid, hr⟩ := import_loop_mem_pendingAdds s.eco_records ow u.id now rs
          s.next_record_id rd hrd hfreshd
        refine ⟨rid, ?_⟩
        rw [hstate]
        exact List.mem_append_right _ hr
      · intro r0 hr0 hdate
        have hUps := import_loop_pendingUpdates s.eco_records ow u.id now rs
          s.next_record_id
        constructor
        · rintro rfl
          rw [hstate]
          apply List.mem_append_left
          have hex : dateExists s.eco_records rd.date = true :=
            (dateExists_true_iff _ _).mpr ⟨r0, hr0, hdate⟩
          have hmemUps : rd ∈ (import_loop s.eco_records true u.id now rs
              s.next_record_id).pendingUpdates := by
            rw [hUps, if_pos rfl]
            exact List.mem_map.mpr ⟨(rd, false), List.mem_filter.mpr ⟨hrd, by simp [hex]⟩, rfl⟩
          have hNodupUps : (((import_loop s.eco_records true u.id now rs
              s.next_record_id).pendingUpdates).map (fun u2 => u2.date)).Nodup := by
            rw [hUps, if_pos rfl, List.map_map]
            exact List.Nodup.sublist
              ((List.filter_sublist rs).map (fun p => p.1.date)) hNodup
          exact applyPendingUpdates_targeted u.id now _ rd _ hmemUps hNodupUps r0 hr0 hdate
        · rintro rfl
          rw [hstate]
          apply List.mem_append_left
          rw [hUps]
          exact hr0

/-- A fresh-date import payload used by the witnesses. -/
def createFreshW : EcoRecordCreate :=
  { date := 739300, powerConsumption := 50, drinkingWater := 10,
    irrigationWater := 0, electricityPrice := 30 }

/-- The payload of the failing import record of the witness batch. -/
def createFailW : EcoRecordCreate :=
  { date := 739301, powerConsumption := 1, drinkingWater := 1,
    irrigationWater := 1, electricityPrice := 1 }

/-- Witness batch: one fresh insert, one overwrite of the existing date, one
per-record failure. -/
def importRsW : List (EcoRecordCreate × Bool) :=
  [(createFreshW, false), (createJan1, false), (createFailW, true)]

/-- C3 witness: importing the concrete three-record batch (fresh insert,
overwrite of the existing date, one failing record) over the one-record
state succeeds, inserts the fresh record and overwrites the existing one. -/
theorem C3_import_batch_witness :
    RecordsInvariant stateWithJan1.eco_records ∧
    (importRsW.map (fun p => p.1.date)).Nodup ∧
    (∃ body, (import_data stateWithJan1 userAlice importRsW true 9 "ip" false).response =
      .ok body) ∧
    (∃ rid, mkImportRecord createFreshW userAlice.id 9 rid ∈
      (import_data stateWithJan1 userAlice importRsW true 9 "ip" false).state.eco_records) ∧
    applyImportUpdate exampleRecord createJan1 userAlice.id 9 ∈
      (import_data stateWithJan1 userAlice importRsW true 9 "ip" false).state.eco_records := by
  have hInv : RecordsInvariant stateWithJan1.eco_records := by
    refine ⟨by simp [stateWithJan1], ?_⟩
    intro r hr
    simp only [stateWithJan1, List.mem_singleton] at hr
    subst hr
    norm_num [exampleRecord]
  have hNodup : (importRsW.map (fun p => p.1.date)).Nodup := by
    simp [importRsW, createFreshW, createJan1, createFailW]
  have h := C3_import_batch stateWithJan1 userAlice importRsW true 9 "ip" false
  have h2 := h.2 hInv hNodup
  refine ⟨hInv, hNodup, h2.1, ?_, ?_⟩
  · refine (h2.2 createFreshW (by simp [importRsW])).1 ?_
    rw [dateExists_false_iff]
    intro r hr
    simp only [stateWithJan1, List.mem_singleton] at hr
    subst hr
    simp [exampleRecord, createFreshW]
  · exact ((h2.2 createJan1 (by simp [importRsW])).2 exampleRecord
      (by simp [stateWithJan1]) rfl).1 rfl

/-- A create payload with a negative field is rejected by the validator. -/
theorem validate_create_error (rd : EcoRecordCreate)
    (h : rd.powerConsumption < 0 ∨ rd.drinkingWater < 0 ∨ rd.irrigationWater < 0 ∨
      rd.electricityPrice < 0) :
    validate_create rd = .error "Value must be positive" := by
  unfold validate_create
  split_ifs with h1 h2 h3 h4
  any_goals rfl
  rcases h with h | h | h | h
  · exact absurd h h1
  · exact absurd h h2
  · exact absurd h h3
  · exact absurd h h4

/-- A create payload accepted by the validator is unchanged and has all four
fields non-negative. -/
theorem validate_create_ok (rd rd2 : EcoRecordCreate) (h : validate_create rd = .ok rd2) :
    rd2 = rd ∧ 0 ≤ rd.powerConsumption ∧ 0 ≤ rd.drinkingWater ∧
      0 ≤ rd.irrigationWater ∧ 0 ≤ rd.electricityPrice := by
  unfold validate_create at h
  split_ifs at h with h1 h2 h3 h4
  any_goals simp at h
  exact ⟨h.symm, le_of_not_lt h1, le_of_not_lt h2, le_of_not_lt h3, le_of_not_lt h4⟩

/-- An update payload providing a negative field is rejected by the
validator. -/
theorem validate_update_error (rd : EcoRecordUpdate)
    (h : ∃ v, (rd.powerConsumption = some v ∨ rd.drinkingWater = some v ∨
      rd.irrigationWater = some v ∨ rd.electricityPrice = some v) ∧ v < 0) :
    validate_update rd = .error "Value must be positive" := by
  obtain ⟨v, hv, hneg⟩ := h
  unfold validate_update
  split_ifs with h1 h2 h3 h4
  any_goals rfl
  rcases hv with hv | hv | hv | hv
  · exact absurd (by simp [hv, hneg]) h1
  · exact absurd (by simp [hv, hneg]) h2
  · exact absurd (by simp [hv, hneg]) h3
  · exact absurd (by simp [hv, hneg]) h4

/-- An update payload accepted by the validator is unchanged and every
provided field is non-negative. -/
theorem validate_update_ok (rd rd2 : EcoRecordUpdate) (h : validate_update rd = .ok rd2) :
    rd2 = rd ∧ (∀ v, rd.powerConsumption = some v → 0 ≤ v) ∧
      (∀ v, rd.drinkingWater = some v → 0 ≤ v) ∧
      (∀ v, rd.irrigationWater = some v → 0 ≤ v) ∧
      (∀ v, rd.electricityPrice = some v → 0 ≤ v) := by
  unfold validate_update at h
  split_ifs at h with h1 h2 h3 h4
  any_goals simp at h
  refine ⟨h.symm, ?_, ?_, ?_, ?_⟩
  · intro v hv; exact le_of_not_lt (by simpa [hv] using h1)
  · intro v hv; exact le_of_not_lt (by simpa [hv] using h2)
  · intro v hv; exact le_of_not_lt (by simpa [hv] using h3)
  · intro v hv; exact le_of_not_lt (by simpa [hv] using h4)

/-- A batch containing a record with a negative field is rejected by the
list validation. -/
theorem validate_import_error (l : List EcoRecordCreate)
    (h : ∃ rd ∈ l, rd.powerConsumption < 0 ∨ rd.drinkingWater < 0 ∨
      rd.irrigationWater < 0 ∨ rd.electricityPrice < 0) :
    ∃ e, validate_import l = .error e := by
  induction l with
  | nil => obtain ⟨rd, hrd, _⟩ := h; cases hrd
  | cons rd0 rest ih =>
    obtain ⟨rd, hrd, hneg⟩ := h
    rcases List.mem_cons.mp hrd with rfl | hmem
    · refine ⟨"Value must be positive", ?_⟩
      unfold validate_import
      rw [validate_create_error rd hneg]
    · cases hv : validate_create rd0 with
      | error e => exact ⟨e, by unfold validate_import; rw [hv]⟩
      | ok rd2 =>
        obtain ⟨e, he⟩ := ih ⟨rd, hmem, hneg⟩
        refine ⟨e, ?_⟩
        unfold validate_import
        rw [hv, he]

/-- A batch accepted by the list validation is unchanged and all its records
have non-negative fields. -/
theorem validate_import_ok (l : List EcoRecordCreate) :
    ∀ l2, validate_import l = .ok l2 →
      l2 = l ∧ ∀ rd ∈ l, 0 ≤ rd.powerConsumption ∧ 0 ≤ rd.drinkingWater ∧
        0 ≤ rd.irrigationWater ∧ 0 ≤ rd.electricityPrice := by
  induction l with
  | nil =>
    intro l2 h
    unfold validate_import at h
    injection h with h
    exact ⟨h.symm, by simp⟩
  | cons rd rest ih =>
    intro l2 h
    unfold validate_import at h
    cases hv : validate_create rd with
    | error e => rw [hv] at h; simp at h
    | ok rd2 =>
      rw [hv] at h
      cases hr : validate_import rest with
      | error e => rw [hr] at h; simp at h
      | ok rest2 =>
        rw [hr] at h
        injection h with h
        obtain ⟨hrd2, hpc, hdw, hiw, hep⟩ := validate_create_ok rd rd2 hv
        obtain ⟨hrest, hall⟩ := ih rest2 hr
        constructor
        · rw [← h, hrd2, hrest]
        · intro rd3 hrd3
          rcases List.mem_cons.mp hrd3 with rfl | hmem
          · exact ⟨hpc, hdw, hiw, hep⟩
          · exact hall rd3 hmem

/-- Applying `updateFirstById` with a date-preserving transformation keeps the list of
dates unchanged. -/
theorem updateFirstById_map_date (record_id : Nat) (f : EcoRecord → EcoRecord)
    (hf : ∀ r, (f r).date = r.date) :
    ∀ l : List EcoRecord, (updateFirstById record_id f l).map (fun r => r.date) =
      l.map (fun r => r.date) := by
  intro l
  induction l with
  | nil => rfl
  | cons x rest ih =>
    by_cases hx : (x.id == record_id) = true
    · rw [updateFirstById, if_pos hx]
      simp [hf]
    · rw [updateFirstById, if_neg hx]
      simp [ih]

/-- Every row of an updated list is an original row or the image of one. -/
theorem updateFirstById_mem_cases (record_id : Nat) (f : EcoRecord → EcoRecord)
    (l : List EcoRecord) (r : EcoRecord) (hr : r ∈ updateFirstById record_id f l) :
    r ∈ l ∨ ∃ r1 ∈ l, r = f r1 := by
  induction l with
  | nil => simp [updateFirstById] at hr
  | cons x rest ih =>
    by_cases hx : (x.id == record_id) = true
    · rw [updateFirstById, if_pos hx] at hr
      rcases List.mem_cons.mp hr with rfl | hr
      · exact Or.inr ⟨x, List.mem_cons_self _ _, rfl⟩
      · exact Or.inl (List.mem_cons_of_mem _ hr)
    · rw [updateFirstById, if_neg hx] at hr
      rcases List.mem_cons.mp hr with rfl | hr
      · exact Or.inl (List.mem_cons_self _ _)
      · rcases ih hr with h | ⟨r1, hr1, h⟩
        · exact Or.inl (List.mem_cons_of_mem _ h)
        · exact Or.inr ⟨r1, List.mem_cons_of_mem _ hr1, h⟩

/-- Creating a validated record preserves the state invariant. -/
theorem create_data_preserves (s : DBState) (u : AppUser) (rd : EcoRecordCreate)
    (now : Nat) (ip : String) (rc af : Bool) (hInv : RecordsInvariant s.eco_records)
    (hrd : 0 ≤ rd.powerConsumption ∧ 0 ≤ rd.drinkingWater ∧ 0 ≤ rd.irrigationWater ∧
      0 ≤ rd.electricityPrice) :
    RecordsInvariant (create_data s u rd now ip rc af).state.eco_records := by
  cases hf : s.eco_records.find? (fun r => r.date == rd.date) with
  | some r1 => simp only [create_data, hf]; exact hInv
  | none =>
    cases rc
    case true => simp only [create_data, hf]; exact hInv
    case false =>
      have hstate : (create_data s u rd now ip false af).state.eco_records =
          s.eco_records ++
            [{ id := s.next_record_id, date := rd.date,
               power_consumption := rd.powerConsumption,
               drinking_water := rd.drinkingWater,
               irrigation_water := rd.irrigationWater,
               electricity_price := rd.electricityPrice,
               created_by := u.id, updated_by := none,
               created_at := now, updated_at := now }] := by
        simp [create_data, hf, log_operation_eco_records]
      rw [hstate]
      constructor
      · rw [List.map_append]
        refine List.Nodup.append hInv.1 (by simp) ?_
        intro d hd1 hd2
        simp only [List.map_cons, List.map_nil, List.mem_singleton] at hd2
        subst hd2
        obtain ⟨r, hr, hrd2⟩ := List.mem_map.mp hd1
        have hne := List.find?_eq_none.mp hf r hr
        simp [hrd2] at hne
      · intro r hr
        rcases List.mem_append.mp hr with hr | hr
        · exact hInv.2 r hr
        · simp only [List.mem_singleton] at hr
          subst hr
          exact ⟨hrd.1, hrd.2.1, hrd.2.2.1, hrd.2.2.2⟩

/-- Updating a record with validated provided fields preserves the state
invariant. -/
theorem update_data_preserves (s : DBState) (u : AppUser) (record_id : Nat)
    (rd : EcoRecordUpdate) (now : Nat) (ip : String) (af : Bool)
    (hInv : RecordsInvariant s.eco_records)
    (hrd : (∀ v, rd.powerConsumption = some v → 0 ≤ v) ∧
      (∀ v, rd.drinkingWater = some v → 0 ≤ v) ∧
      (∀ v, rd.irrigationWater = some v → 0 ≤ v) ∧
      (∀ v, rd.electricityPrice = some v → 0 ≤ v)) :
    RecordsInvariant (update_data s u record_id rd now ip af).state.eco_records := by
  cases hf : s.eco_records.find? (fun r => r.id == record_id) with
  | none => simp only [update_data, hf]; exact hInv
  | some r0 =>
    have hstate : (update_data s u record_id rd now ip af).state.eco_records =
        updateFirstById record_id (fun r => applyUpdate r rd u.id now) s.eco_records := by
      simp [update_data, hf, log_operation_eco_records]
    rw [hstate]
    constructor
    · rw [updateFirstById_map_date record_id
        (fun r => applyUpdate r rd u.id now) (fun r => rfl)]
      exact hInv.1
    · intro r hr
      rcases updateFirstById_mem_cases record_id _ s.eco_records r hr with hr2 | ⟨r1, hr1, rfl⟩
      · exact hInv.2 r hr2
      · have h1 := hInv.2 r1 hr1
        refine ⟨?_, ?_, ?_, ?_⟩
        · cases hv : rd.powerConsumption with
          | none => simpa [applyUpdate, hv] using h1.1
          | some v => simpa [applyUpdate, hv] using hrd.1 v hv
        · cases hv : rd.drinkingWater with
          | none => simpa [applyUpdate, hv] using h1.2.1
          | some v => simpa [applyUpdate, hv] using hrd.2.1 v hv
        · cases hv : rd.irrigationWater with
          | none => simpa [applyUpdate, hv] using h1.2.2.1
          | some v => simpa [applyUpdate, hv] using hrd.2.2.1 v hv
        · cases hv : rd.electricityPrice with
          | none => simpa [applyUpdate, hv] using h1.2.2.2
          | some v => simpa [applyUpdate, hv] using hrd.2.2.2 v hv

/-- A batch import of records with non-negative fields preserves the state
invariant (the date-uniqueness half is exactly the commit condition; a
failing commit rolls back). -/
theorem import_data_preserves (s : DBState) (u : AppUser)
    (rs : List (EcoRecordCreate × Bool)) (ow : Bool) (now : Nat) (ip : String)
    (af : Bool) (hInv : RecordsInvariant s.eco_records)
    (hall : ∀ p ∈ rs, 0 ≤ p.1.powerConsumption ∧ 0 ≤ p.1.drinkingWater ∧
      0 ≤ p.1.irrigationWater ∧ 0 ≤ p.1.electricityPrice) :
    RecordsInvariant (import_data s u rs ow now ip af).state.eco_records := by
  have hups : ∀ rd ∈ (import_loop s.eco_records ow u.id now rs
      s.next_record_id).pendingUpdates,
      0 ≤ rd.powerConsumption ∧ 0 ≤ rd.drinkingWater ∧ 0 ≤ rd.irrigationWater ∧
        0 ≤ rd.electricityPrice := by
    intro rd hrd
    rw [import_loop_pendingUpdates] at hrd
    cases ow
    · simp at hrd
    · rw [if_pos rfl] at hrd
      obtain ⟨p, hp, rfl⟩ := List.mem_map.mp hrd
      exact hall p (List.mem_filter.mp hp).1
  simp only [import_data]
  split
  case isFalse h => exact hInv
  case isTrue h =>
    rw [log_operation_eco_records]
    refine ⟨h, ?_⟩
    intro r hr
    rcases List.mem_append.mp hr with hr | hr
    · exact applyPendingUpdates_nonneg u.id now _ hups s.eco_records hInv.2 r hr
    · obtain ⟨p, hp, _, _, rid, rfl⟩ :=
        import_loop_pendingAdds_shape s.eco_records ow u.id now rs s.next_record_id r hr
      have hv := hall p hp
      exact ⟨by simpa [mkImportRecord] using hv.1, by simpa [mkImportRecord] using hv.2.1,
        by simpa [mkImportRecord] using hv.2.2.1, by simpa [mkImportRecord] using hv.2.2.2⟩

/-- The one-record witness state satisfies the invariant. -/
theorem stateWithJan1_invariant : RecordsInvariant stateWithJan1.eco_records := by
  refine ⟨by simp [stateWithJan1], ?_⟩
  intro r hr
  simp only [stateWithJan1, List.mem_singleton] at hr
  subst hr
  norm_num [exampleRecord]

/-- C4: the mutating operations (create, update, batch import) preserve the
state invariant that there is at most one record per calendar date and that
all four numeric fields of every stored record are non-negative; an input
with any negative numeric field is rejected at the validation boundary
before any state change. -/
theorem C4_mutations_preserve_invariant (s : DBState) (u : AppUser)
    (raw : EcoRecordCreate) (record_id : Nat) (rawu : EcoRecordUpdate)
    (rs : List (EcoRecordCreate × Bool)) (ow : Bool) (now : Nat) (ip : String)
    (rc af : Bool) (hInv : RecordsInvariant s.eco_records) :
    RecordsInvariant (create_endpoint s u raw now ip rc af).state.eco_records ∧
    RecordsInvariant (update_endpoint s u record_id rawu now ip af).state.eco_records ∧
    RecordsInvariant (import_endpoint s u rs ow now ip af).state.eco_records ∧
    ((raw.powerConsumption < 0 ∨ raw.drinkingWater < 0 ∨ raw.irrigationWater < 0 ∨
        raw.electricityPrice < 0) →
      (create_endpoint s u raw now ip rc af).state = s ∧
      ∃ e, (create_endpoint s u raw now ip rc af).response = .error e) ∧
    ((∃ v, (rawu.powerConsumption = some v ∨ rawu.drinkingWater = some v ∨
        rawu.irrigationWater = some v ∨ rawu.electricityPrice = some v) ∧ v < 0) →
      (update_endpoint s u record_id rawu now ip af).state = s ∧
      ∃ e, (update_endpoint s u record_id rawu now ip af).response = .error e) ∧
    ((∃ p ∈ rs, p.1.powerConsumption < 0 ∨ p.1.drinkingWater < 0 ∨
        p.1.irrigationWater < 0 ∨ p.1.electricityPrice < 0) →
      (import_endpoint s u rs ow now ip af).state = s ∧
      ∃ e, (import_endpoint s u rs ow now ip af).response = .error e) := by
  refine ⟨?_, ?_, ?_, ?_, ?_, ?_⟩
  · cases hv : validate_create raw with
    | error e => simp only [create_endpoint, hv]; exact hInv
    | ok rd =>
      obtain ⟨hEq, hpc, hdw, hiw, hep⟩ := validate_create_ok raw rd hv
      subst hEq
      simp only [create_endpoint, hv]
      exact create_data_preserves s u rd now ip rc af hInv ⟨hpc, hdw, hiw, hep⟩
  · cases hv : validate_update rawu with
    | error e => simp only [update_endpoint, hv]; exact hInv
    | ok rd =>
      obtain ⟨hEq, h1, h2, h3, h4⟩ := validate_update_ok rawu rd hv
      subst hEq
      simp only [update_endpoint, hv]
      exact update_data_preserves s u record_id rd now ip af hInv ⟨h1, h2, h3, h4⟩
  · cases hv : validate_import (rs.map (fun p => p.1)) with
    | error e => simp only [import_endpoint, hv]; exact hInv
    | ok l2 =>
      obtain ⟨-, hall⟩ := validate_import_ok (rs.map (fun p => p.1)) l2 hv
      simp only [import_endpoint, hv]
      refine import_data_preserves s u rs ow now ip af hInv ?_
      intro p hp
      exact hall p.1 (List.mem_map.mpr ⟨p, hp, rfl⟩)
  · intro hneg
    have he := validate_create_error raw hneg
    simp only [create_endpoint, he]
    exact ⟨trivial, _, rfl⟩
  · intro hneg
    have he := validate_update_error rawu hneg
    simp only [update_endpoint, he]
    exact ⟨trivial, _, rfl⟩
  · intro hneg
    obtain ⟨p, hp, h⟩ := hneg
    obtain ⟨e, he⟩ := validate_import_error (rs.map (fun p => p.1))
      ⟨p.1, List.mem_map.mpr ⟨p, hp, rfl⟩, h⟩
    simp only [import_endpoint, he]
    exact ⟨trivial, _, rfl⟩

/-- A create payload with a negative power consumption, for the C4 witness. -/
def createNegW : EcoRecordCreate :=
  { date := 739400, powerConsumption := -5, drinkingWater := 1,
    irrigationWater := 1, electricityPrice := 1 }

/-- C4 witness: the invariant holds after creating a fresh valid record over
the one-record state, and a create with a negative power consumption is
rejected with no state change. -/
theorem C4_mutations_preserve_invariant_witness :
    RecordsInvariant stateWithJan1.eco_records ∧
    RecordsInvariant
      (create_endpoint stateWithJan1 userAlice createFreshW 9 "ip" false false).state.eco_records ∧
    (create_endpoint stateWithJan1 userAlice createNegW 9 "ip" false false).state =
      stateWithJan1 ∧
    (∃ e, (create_endpoint stateWithJan1 userAlice createNegW 9 "ip" false false).response =
      .error e) := by
  have h1 := C4_mutations_preserve_invariant stateWithJan1 userAlice createFreshW 1
    ⟨none, none, none, none⟩ [] false 9 "ip" false false stateWithJan1_invariant
  have h2 := C4_mutations_preserve_invariant stateWithJan1 userAlice createNegW 1
    ⟨none, none, none, none⟩ [] false 9 "ip" false false stateWithJan1_invariant
  have hneg := h2.2.2.2.1 (Or.inl (by norm_num [createNegW]))
  exact ⟨stateWithJan1_invariant, h1.1, hneg.1, hneg.2⟩

/-- C7: a failure inside the audit-log append is always caught and never
propagates: `log_operation` returns a state in every case (the failing case
rolls back only the pending log row), and for each record mutation (create,
update, delete, clear-all, batch import) the business response returned to
the client is identical whether the audit write fails or succeeds; in
particular a successful creation still returns the success body when its
audit write fails. -/
theorem C7_audit_failure_isolated (s : DBState) (u : AppUser) (rd : EcoRecordCreate)
    (record_id : Nat) (rdu : EcoRecordUpdate) (rs : List (EcoRecordCreate × Bool))
    (ow : Bool) (now : Nat) (ip : String) (rc : Bool)
    (uid : Nat) (a t : String) (rid : Option Nat) (od nd : Option Snapshot)
    (d ipo : Option String) :
    (∀ fails, ∃ s2, log_operation s uid a t rid od nd d ipo now fails = s2 ∧
      s2.eco_records = s.eco_records ∧ s2.users = s.users) ∧
    (create_data s u rd now ip rc true).response =
      (create_data s u rd now ip rc false).response ∧
    (update_data s u record_id rdu now ip true).response =
      (update_data s u record_id rdu now ip false).response ∧
    (delete_data s u record_id now ip true).response =
      (delete_data s u record_id now ip false).response ∧
    (clear_all_data s u now ip true).response =
      (clear_all_data s u now ip false).response ∧
    (import_data s u rs ow now ip true).response =
      (import_data s u rs ow now ip false).response ∧
    ((∀ r ∈ s.eco_records, r.date ≠ rd.date) → rc = false →
      ∃ resp, (create_data s u rd now ip rc true).response =
        .ok (.success "Data record created successfully" resp)) := by
  refine ⟨?_, ?_, ?_, ?_, ?_, ?_, ?_⟩
  · intro fails
    refine ⟨_, rfl, ?_, ?_⟩
    · exact log_operation_eco_records s uid a t rid od nd d ipo now fails
    · exact log_operation_users s uid a t rid od nd d ipo now fails
  · cases hf : s.eco_records.find? (fun r => r.date == rd.date) with
    | some r1 => simp [create_data, hf]
    | none =>
      cases rc
      · simp [create_data, hf, format_record_response, log_operation_users]
      · simp [create_data, hf]
  · cases hf : s.eco_records.find? (fun r => r.id == record_id) with
    | none => simp [update_data, hf]
    | some r0 => simp [update_data, hf, format_record_response, log_operation_users]
  · cases hf : s.eco_records.find? (fun r => r.id == record_id) with
    | none => simp [delete_data, hf]
    | some r0 => simp [delete_data, hf]
  · rfl
  · simp only [import_data]
    split <;> rfl
  · intro hfresh hrc
    subst hrc
    have hf : s.eco_records.find? (fun r => r.date == rd.date) = none :=
      List.find?_eq_none.mpr (fun r hr => by simpa using hfresh r hr)
    refine ⟨format_record_response s.users
      { id := s.next_record_id, date := rd.date,
        power_consumption := rd.powerConsumption,
        drinking_water := rd.drinkingWater,
        irrigation_water := rd.irrigationWater,
        electricity_price := rd.electricityPrice,
        created_by := u.id, updated_by := none,
        created_at := now, updated_at := now }, ?_⟩
    simp only [create_data, hf]
    rfl

/-- C7 witness: on the one-record state, creating a fresh record with the
audit write failing still returns the success body, and the duplicate-date
response is unchanged by audit failure. -/
theorem C7_audit_failure_isolated_witness :
    (∀ fails, ∃ s2, log_operation stateWithJan1 1 "CREATE" "eco_records" none none none
      none none 9 fails = s2 ∧
      s2.eco_records = stateWithJan1.eco_records ∧ s2.users = stateWithJan1.users) ∧
    (∃ resp, (create_data stateWithJan1 userAlice createFreshW 9 "ip" false true).response =
      .ok (.success "Data record created successfully" resp)) := by
  have h := C7_audit_failure_isolated stateWithJan1 userAlice createFreshW 1
    ⟨none, none, none, none⟩ [] false 9 "ip" false 1 "CREATE" "eco_records" none none none
    none none
  refine ⟨h.1, ?_⟩
  refine h.2.2.2.2.2.2 ?_ rfl
  intro r hr
  simp only [stateWithJan1, List.mem_singleton] at hr
  subst hr
  simp [exampleRecord, createFreshW]

/-- C10: the clear-all handler (and every other record mutation) is not
role-gated: its outcome is identical for any two roles of the same
authenticated user, and a confirmed clear-all request from a plain user
deletes every record and reports the count instead of being denied. -/
theorem C10_mutations_not_role_gated (s : DBState) (u : AppUser) (r1 r2 : String)
    (confirm : Option Bool) (rd : EcoRecordCreate) (record_id : Nat)
    (rdu : EcoRecordUpdate) (rs : List (EcoRecordCreate × Bool)) (ow : Bool)
    (now : Nat) (ip : String) (rc af : Bool) :
    clear_endpoint s { u with role := r1 } confirm now ip af =
      clear_endpoint s { u with role := r2 } confirm now ip af ∧
    create_data s { u with role := r1 } rd now ip rc af =
      create_data s { u with role := r2 } rd now ip rc af ∧
    update_data s { u with role := r1 } record_id rdu now ip af =
      update_data s { u with role := r2 } record_id rdu now ip af ∧
    delete_data s { u with role := r1 } record_id now ip af =
      delete_data s { u with role := r2 } record_id now ip af ∧
    import_data s { u with role := r1 } rs ow now ip af =
      import_data s { u with role := r2 } rs ow now ip af ∧
    ({ u with role := "user" } : AppUser).role ≠ "admin" ∧
    (clear_endpoint s { u with role := "user" } (some true) now ip af).response =
      .ok { success := true, message := "All data records deleted successfully",
            deletedCount := s.eco_records.length,
            warning := "All system data has been permanently deleted" } ∧
    (clear_endpoint s { u with role := "user" } (some true) now ip af).state.eco_records
      = [] := by
  refine ⟨rfl, rfl, rfl, rfl, rfl, by simp, rfl, ?_⟩
  simp only [clear_endpoint, validate_clear, clear_all_data]
  rw [log_operation_eco_records]

/-- C10 witness: on the one-record state the confirmed clear-all of a plain user
deletes the record and reports deletedCount 1, identically to an admin. -/
theorem C10_mutations_not_role_gated_witness :
    clear_endpoint stateWithJan1 { userAlice with role := "user" } (some true) 9 "ip" false =
      clear_endpoint stateWithJan1 { userAlice with role := "admin" } (some true) 9 "ip" false ∧
    (clear_endpoint stateWithJan1 { userAlice with role := "user" } (some true) 9 "ip"
      false).response =
      .ok { success := true, message := "All data records deleted successfully",
            deletedCount := 1,
            warning := "All system data has been permanently deleted" } ∧
    (clear_endpoint stateWithJan1 { userAlice with role := "user" } (some true) 9 "ip"
      false).state.eco_records = [] := by
  have h := C10_mutations_not_role_gated stateWithJan1 userAlice "user" "admin"
    (some true) createFreshW 1 ⟨none, none, none, none⟩ [] false 9 "ip" false false
  exact ⟨h.1, h.2.2.2.2.2.2.1, h.2.2.2.2.2.2.2⟩

/-- ORDER BY created_at DESC as a relation: the left log is at least as
recent as the right one. -/
def logNewerFirst (a b : OperationLog) : Prop := b.created_at ≤ a.created_at

instance : DecidableRel logNewerFirst := fun a b => Nat.decLe b.created_at a.created_at

instance : IsTotal OperationLog logNewerFirst :=
  ⟨fun a b => Nat.le_total b.created_at a.created_at⟩

instance : IsTrans OperationLog logNewerFirst :=
  ⟨fun _ _ _ h1 h2 => Nat.le_trans h2 h1⟩

/-- The conjunctive filter of routers/logs.py `get_operation_logs`, with
Python truthiness: a supplied startDate/endDate always filters (date objects
are truthy); a supplied userId filters only when non-zero (`if userId:`);
a supplied action only when non-empty (`if action:`). -/
def logMatches (startDate endDate : Option Nat) (userId : Option Nat)
    (action : Option String) (l : OperationLog) : Bool :=
  (match startDate with
   | some d2 => decide (d2 ≤ l.created_at)
   | none => true) &&
  (match endDate with
   | some d2 => decide (l.created_at ≤ d2)
   | none => true) &&
  (match userId with
   | some uid => if uid == 0 then true else l.user_id == uid
   | none => true) &&
  (match action with
   | some a => if a == "" then true else l.action == a
   | none => true)

/-- The pagination block of the logs response. -/
structure LogsPagination where
  currentPage : Nat
  totalPages : Nat
  totalCount : Nat
  hasNext : Bool
  hasPrev : Bool
deriving Repr, DecidableEq

/-- The logs response data. -/
structure LogsBody where
  logs : List OperationLog
  pagination : LogsPagination
deriving Repr, DecidableEq

/-- routers/logs.py `get_operation_logs` behind auth.py
`get_current_admin_user`: a non-admin caller is denied with 403 (distinct
from the 401 raised for a bad token); for an admin the query joins users,
applies the conjunctive filters, sorts by created_at descending and
paginates by offset, deriving totalPages/hasNext/hasPrev from the total
count and current page. -/
def get_operation_logs (s : DBState) (current_user : AppUser) (page limit : Nat)
    (startDate endDate : Option Nat) (userId : Option Nat) (action : Option String) :
    Except HttpError LogsBody :=
  if current_user.role ≠ "admin" then
    .error { statusCode := 403, detail := "Access denied. Admin only." }
  else
    let joined := s.operation_logs.filter
      (fun l => s.users.any (fun u2 => u2.id == l.user_id))
    let filtered := joined.filter (logMatches startDate endDate userId action)
    let sorted := List.insertionSort logNewerFirst filtered
    let total := filtered.length
    let offset := (page - 1) * limit
    let logs := (sorted.drop offset).take limit
    let total_pages := (total + limit - 1) / limit
    .ok { logs := logs,
          pagination := { currentPage := page, totalPages := total_pages,
                          totalCount := total, hasNext := decide (page < total_pages),
                          hasPrev := decide (page > 1) } }

/-- The admin user of the logs witnesses. -/
def adminBob : AppUser :=
  { id := 2, username := "@bob", password := "secret2", role := "admin" }

/-- A log row attributed to user 1. -/
def logA : OperationLog :=
  { id := 1, user_id := 1, action := "CREATE", table_name := "eco_records",
    record_id := some 1, old_data := none, new_data := none, description := none,
    ip_address := none, created_at := 5 }

/-- State holding one operation log (attributed to user 1) and two users. -/
def logsState : DBState :=
  { users := [userAlice, adminBob], eco_records := [], operation_logs := [logA],
    next_user_id := 3, next_record_id := 1, next_log_id := 2 }

/-- C8 counterexample: with the filter userId=0 supplied by an admin, the
handler skips the user filter (Python truthiness of `if userId:`), so the
returned page contains the log whose user_id is 1 — the returned logs do
not satisfy the supplied userId filter, refuting the claim as stated. -/
theorem C8_logs_userId_zero_counterexample :
    get_operation_logs logsState adminBob 1 20 none none (some 0) none =
      .ok { logs := [logA],
            pagination := { currentPage := 1, totalPages := 1, totalCount := 1,
                            hasNext := false, hasPrev := false } } ∧
    logA.user_id ≠ 0 := by
  exact ⟨by decide, by decide⟩

/-- C8 (amended): a non-admin caller of the logs endpoint is denied with a
403 forbidden error distinct from a 401 authentication error; for an admin
caller the returned logs satisfy all supplied filters conjunctively — where
a supplied userId of 0 and a supplied empty action string are ignored, as
Python truthiness makes them — and are sorted newest-first by creation
time, with hasNext true iff page < totalPages and hasPrev true iff
page > 1. -/
theorem C8_logs_admin_filtered_sorted (s : DBState) (caller : AppUser)
    (page limit : Nat) (sd ed : Option Nat) (userId : Option Nat)
    (action : Option String) :
    (caller.role ≠ "admin" →
      get_operation_logs s caller page limit sd ed userId action =
        .error { statusCode := 403, detail := "Access denied. Admin only." } ∧
      ({ statusCode := 403, detail := "Access denied. Admin only." } : HttpError).statusCode
        ≠ 401) ∧
    (∀ body, get_operation_logs s caller page limit sd ed userId action = .ok body →
      (∀ l ∈ body.logs,
        (∀ d2, sd = some d2 → d2 ≤ l.created_at) ∧
        (∀ d2, ed = some d2 → l.created_at ≤ d2) ∧
        (∀ uid, userId = some uid → uid ≠ 0 → l.user_id = uid) ∧
        (∀ a, action = some a → a ≠ "" → l.action = a)) ∧
      List.Sorted logNewerFirst body.logs ∧
      (body.pagination.hasNext = true ↔
        body.pagination.currentPage < body.pagination.totalPages) ∧
      (body.pagination.hasPrev = true ↔ 1 < body.pagination.currentPage)) := by
  constructor
  · intro hrole
    refine ⟨?_, by decide⟩
    simp only [get_operation_logs, if_pos hrole]
  · intro body hbody
    by_cases hrole : caller.role ≠ "admin"
    · simp only [get_operation_logs, if_pos hrole] at hbody
      simp at hbody
    · simp only [get_operation_logs, if_neg hrole, Except.ok.injEq] at hbody
      subst hbody
      refine ⟨?_, ?_, by simp, by simp⟩
      · intro l hl
        have hl1 := List.mem_of_mem_drop (List.mem_of_mem_take hl)
        have hl2 := (List.perm_insertionSort logNewerFirst _).mem_iff.mp hl1
        have hmatch := (List.mem_filter.mp hl2).2
        simp only [logMatches, Bool.and_eq_true] at hmatch
        obtain ⟨⟨⟨h1, h2⟩, h3⟩, h4⟩ := hmatch
        refine ⟨?_, ?_, ?_, ?_⟩
        · intro d2 hd2; rw [hd2] at h1; simpa using h1
        · intro d2 hd2; rw [hd2] at h2; simpa using h2
        · intro uid huid hne
          simp only [huid] at h3
          rw [if_neg (by simpa using hne)] at h3
          simpa using h3
        · intro a ha hne
          simp only [ha] at h4
          rw [if_neg (by simpa using hne)] at h4
          simpa using h4
      · exact List.Pairwise.sublist
          ((List.take_sublist _ _).trans (List.drop_sublist _ _))
          (List.sorted_insertionSort logNewerFirst _)

/-- The logs body returned to the admin in the C8 witness. -/
def logsBodyW : LogsBody :=
  { logs := [logA],
    pagination := { currentPage := 1, totalPages := 1, totalCount := 1,
                    hasNext := false, hasPrev := false } }

/-- C8 witness: the plain user is denied with 403; the filtered admin call
over the one-log state returns the single matching log, which satisfies the
supplied date-range, userId and action filters and is sorted. -/
theorem C8_logs_admin_filtered_sorted_witness :
    get_operation_logs logsState userAlice 1 20 none none none none =
      .error { statusCode := 403, detail := "Access denied. Admin only." } ∧
    (∀ l ∈ logsBodyW.logs,
      (∀ d2, (some 4 : Option Nat) = some d2 → d2 ≤ l.created_at) ∧
      (∀ d2, (some 6 : Option Nat) = some d2 → l.created_at ≤ d2) ∧
      (∀ uid, (some 1 : Option Nat) = some uid → uid ≠ 0 → l.user_id = uid) ∧
      (∀ a, (some "CREATE" : Option String) = some a → a ≠ "" → l.action = a)) ∧
    List.Sorted logNewerFirst logsBodyW.logs := by
  have h1 := C8_logs_admin_filtered_sorted logsState userAlice 1 20 none none none none
  have h2 := C8_logs_admin_filtered_sorted logsState adminBob 1 20 (some 4) (some 6)
    (some 1) (some "CREATE")
  have hb := h2.2 logsBodyW (by decide)
  exact ⟨(h1.1 (by decide)).1, hb.1, hb.2.1⟩

/-- Python `v.startswith('@')` for the single-character sigil: true exactly
when the first character of the string is `@`. -/
def startsWithSigil (s : String) : Bool :=
  s.data.head?.any (fun c => c == '@')

/-- schemas.py `UserRegister`: the raw registration payload. -/
structure UserRegister where
  username : String
  password : String
  confirmPassword : String
deriving Repr, DecidableEq

/-- schemas.py `UserRegister` validators in field order: username sigil and
minimum length 3, password minimum length 6, password match. -/
def validate_register (r : UserRegister) : Except String UserRegister :=
  if ¬ startsWithSigil r.username then .error "Username must start with @"
  else if r.username.length < 3 then .error "Username must be at least 3 characters"
  else if r.password.length < 6 then .error "Password must be at least 6 characters"
  else if r.confirmPassword ≠ r.password then .error "Passwords do not match"
  else .ok r

/-- The JSON envelope of a register response delivered with HTTP 200. -/
inductive RegisterBody where
  | failure (error message : String) (details : FailureDetails)
  | success (message : String) (id : Nat) (username role : String)
deriving Repr, DecidableEq

/-- A register endpoint response tagged by how it is produced: a framework
request-validation rejection (pydantic detail, HTTP 422), a handler JSON
envelope (HTTP 200), or a raised HTTPException. -/
inductive RegisterResponse where
  | unprocessable (detail : String)
  | envelope (body : RegisterBody)
  | httpError (e : HttpError)
deriving Repr, DecidableEq

/-- The HTTP status of a register response: framework validation failures
are 422, handler envelopes 200, raised exceptions carry their own code. -/
def RegisterResponse.status : RegisterResponse → Nat
  | .unprocessable _ => 422
  | .envelope _ => 200
  | .httpError e => e.statusCode

/-- routers/auth.py `register`: the duplicate-username pre-check returns the
structured failure body inside an HTTP 200 envelope; otherwise the user is
inserted with role `user`; an IntegrityError race at commit is caught and
translated to the same body. -/
def register (s : DBState) (rd : UserRegister) (raceDup : Bool) :
    RegisterResponse × DBState :=
  match s.users.find? (fun u => u.username == rd.username) with
  | some _ =>
      (.envelope (.failure "Validation failed" "Username already exists"
        { field := "username", code := "DUPLICATE_USERNAME" }), s)
  | none =>
      if raceDup then
        (.envelope (.failure "Validation failed" "Username already exists"
          { field := "username", code := "DUPLICATE_USERNAME" }), s)
      else
        (.envelope (.success "Registration successful" s.next_user_id rd.username "user"),
         { s with
           users := s.users ++
             [{ id := s.next_user_id, username := rd.username,
                password := rd.password, role := "user" }],
           next_user_id := s.next_user_id + 1 })

/-- The POST /auth/register endpoint: pydantic validation runs before the
handler; a validator failure is a framework 422 rejection. -/
def register_endpoint (s : DBState) (raw : UserRegister) (raceDup : Bool) :
    RegisterResponse × DBState :=
  match validate_register raw with
  | .error e => (.unprocessable e, s)
  | .ok rd => register s rd raceDup

/-- A registration payload violating any of the schema validators is
rejected by `validate_register`. -/
theorem validate_register_error (raw : UserRegister)
    (h : startsWithSigil raw.username = false ∨ raw.username.length < 3 ∨
      raw.password.length < 6 ∨ raw.confirmPassword ≠ raw.password) :
    ∃ e, validate_register raw = .error e := by
  unfold validate_register
  split_ifs with h1 h2 h3 h4
  any_goals exact ⟨_, rfl⟩
  rcases h with h | h | h | h
  · simp [h] at h1
  · exact absurd h h2
  · exact absurd h h3
  · exact absurd h h4

/-- A registration payload accepted by the validators is unchanged. -/
theorem validate_register_ok (raw rd : UserRegister)
    (h : validate_register raw = .ok rd) : rd = raw := by
  unfold validate_register at h
  split_ifs at h
  any_goals simp at h
  exact h.symm

/-- C9 counterexample: a registration whose username lacks the sigil is not
returned as a success:false body with HTTP status 200; it is rejected by the
request-validation layer with HTTP 422 and the framework detail shape. -/
theorem C9_validation_status_counterexample :
    (register_endpoint emptyState
      { username := "user1", password := "password1", confirmPassword := "password1" }
      false).1 = .unprocessable "Username must start with @" ∧
    ((register_endpoint emptyState
      { username := "user1", password := "password1", confirmPassword := "password1" }
      false).1).status = 422 ∧
    ((register_endpoint emptyState
      { username := "user1", password := "password1", confirmPassword := "password1" }
      false).1).status ≠ 200 := by
  exact ⟨by decide, by decide, by decide⟩

/-- C9 (amended): a registration failing a schema validator (missing sigil,
username shorter than 3, password shorter than 6, or mismatched passwords)
is rejected at the request boundary with HTTP 422 in the framework
validation shape, with no state change; only the duplicate-username failure
detected inside the handler is returned as a success:false body carrying a
field/code pair with HTTP status 200 (the same shape as the duplicate-date
failure of the data router). -/
theorem C9_validation_failures (s : DBState) (raw : UserRegister) (race : Bool) :
    ((startsWithSigil raw.username = false ∨ raw.username.length < 3 ∨
        raw.password.length < 6 ∨ raw.confirmPassword ≠ raw.password) →
      ∃ e, (register_endpoint s raw race).1 = .unprocessable e ∧
        ((register_endpoint s raw race).1).status = 422 ∧
        (register_endpoint s raw race).2 = s) ∧
    ((∃ u0 ∈ s.users, u0.username = raw.username) →
      ∀ rd, validate_register raw = .ok rd →
        (register_endpoint s raw race).1 =
          .envelope (.failure "Validation failed" "Username already exists"
            { field := "username", code := "DUPLICATE_USERNAME" }) ∧
        ((register_endpoint s raw race).1).status = 200 ∧
        (register_endpoint s raw race).2 = s) := by
  constructor
  · intro h
    obtain ⟨e, he⟩ := validate_register_error raw h
    refine ⟨e, ?_, ?_, ?_⟩ <;>
      simp [register_endpoint, he, RegisterResponse.status]
  · intro hdup rd hok
    have hEq := validate_register_ok raw rd hok
    subst hEq
    obtain ⟨u0, hu0, hname⟩ := hdup
    obtain ⟨u1, hfind⟩ : ∃ u1, s.users.find? (fun u => u.username == rd.username) =
        some u1 := by
      have hs : (s.users.find? (fun u => u.username == rd.username)).isSome :=
        List.find?_isSome.mpr ⟨u0, hu0, by simp [hname]⟩
      exact Option.isSome_iff_exists.mp hs
    refine ⟨?_, ?_, ?_⟩ <;>
      simp [register_endpoint, hok, register, hfind, RegisterResponse.status]

/-- C9 witness: the sigil-less registration is rejected with 422 and no
state change; registering the already-taken username `@alice` (passing all
validators) yields the success:false duplicate body with status 200. -/
theorem C9_validation_failures_witness :
    (∃ e, (register_endpoint emptyState
        { username := "user1", password := "password1", confirmPassword := "password1" }
        false).1 = .unprocessable e ∧
      ((register_endpoint emptyState
        { username := "user1", password := "password1", confirmPassword := "password1" }
        false).1).status = 422 ∧
      (register_endpoint emptyState
        { username := "user1", password := "password1", confirmPassword := "password1" }
        false).2 = emptyState) ∧
    ((register_endpoint emptyState
        { username := "@alice", password := "password1", confirmPassword := "password1" }
        false).1 =
      .envelope (.failure "Validation failed" "Username already exists"
        { field := "username", code := "DUPLICATE_USERNAME" }) ∧
     ((register_endpoint emptyState
        { username := "@alice", password := "password1", confirmPassword := "password1" }
        false).1).status = 200 ∧
     (register_endpoint emptyState
        { username := "@alice", password := "password1", confirmPassword := "password1" }
        false).2 = emptyState) := by
  have h1 := C9_validation_failures emptyState
    { username := "user1", password := "password1", confirmPassword := "password1" } false
  have h2 := C9_validation_failures emptyState
    { username := "@alice", password := "password1", confirmPassword := "password1" } false
  refine ⟨h1.1 (Or.inl (by decide)), ?_⟩
  exact h2.2 ⟨userAlice, by simp [emptyState], rfl⟩
    { username := "@alice", password := "password1", confirmPassword := "password1" }
    (by decide)
